import Mathlib

/-!
Verification of the Booking & Availability Transaction Engine
(`src/modules/bookings/service.js`, the `BookingService` class).

Shallow embedding conventions:
* Calendar dates are modelled at day granularity as `Int` (days since an
  arbitrary epoch); the half-open interval convention of the source is kept.
  Clock time used by the cancellation-fee evaluator is modelled in hours
  as `ℚ` (a booking's `startDate` at day `d` corresponds to hour `24*d`).
* JS numbers and Prisma `Decimal` values are modelled as exact rationals `ℚ`.
* Prisma enums (`BookingStatus`, `PaymentStatus`) serialise to strings, and
  `validateStateTransition` does a plain JS object lookup keyed by the status
  string, so statuses are modelled as `String`.
* Fallible code returns `Except ApiError`; a Prisma `$transaction` whose body
  throws commits nothing, so state-returning operations yield the new state
  only in the `.ok` case.
* The JS `x || y` defaulting idiom on JSON numbers treats `0` as absent
  (falsy); this is modelled by `jsOrQ` / `jsOrInt`.  Prisma `Decimal` objects
  are truthy even at value `0`, so for the nullable `Decimal` column
  `availability.price` only `null` falls back (`Option.getD`).
* The one-to-one `payment` record created/updated together with a booking is
  inlined into `BookingRow` (fields `paymentStatus`, `paymentAmount`,
  `refundAmount`, `refundedAt`).
-/

/-- Error taxonomy of `src/utils/apiError.js` as used by the booking service. -/
inductive ApiError where
  | validation (msg : String)
  | notFound (msg : String)
  | conflict (msg : String)
  | booking (msg : String)
  | database (msg : String)
deriving DecidableEq, Repr

/-- Property-level cancellation policy object (a JSON column; the fields are
exactly those read by `calculateCancellationFee`: `strictWindow`, `strictFee`,
`cancellationWindowHours`, `feePercentage`, `flexibleFee`). -/
structure CancellationPolicy where
  strictWindow : Option ℚ
  strictFee : Option ℚ
  cancellationWindowHours : Option ℚ
  feePercentage : Option ℚ
  flexibleFee : Option ℚ
deriving DecidableEq, Repr

/-- The `Property` rows as read by the booking service. -/
structure Property where
  id : String
  status : String
  maxGuests : Nat
  minStay : Option Int
  maxStay : Option Int
  basePrice : ℚ
  currency : String
  cancellationPolicy : Option CancellationPolicy
deriving DecidableEq, Repr

/-- The `Availability` rows (per-property day slots). -/
structure AvailabilitySlot where
  id : Nat
  propertyId : String
  startDate : Int
  endDate : Int
  price : Option ℚ
  isAvailable : Bool
  bookingId : Option Nat
deriving DecidableEq, Repr

/-- A `Booking` row with its one-to-one `Payment` record inlined. -/
structure BookingRow where
  id : Nat
  propertyId : String
  tenantId : String
  startDate : Int
  endDate : Int
  adults : Nat
  children : Nat
  infants : Nat
  status : String
  basePrice : ℚ
  taxes : ℚ
  fees : ℚ
  totalPrice : ℚ
  cancellationReason : Option String
  cancellationDate : Option ℚ
  updatedAt : Option ℚ
  paymentStatus : String
  paymentAmount : ℚ
  refundAmount : Option ℚ
  refundedAt : Option ℚ
  paymentMethod : String
deriving DecidableEq, Repr

/-- The relational store visible to the booking service. -/
structure DB where
  properties : List Property
  bookings : List BookingRow
  availability : List AvailabilitySlot
deriving DecidableEq, Repr

/-- JS `x || d` on a nullable JSON number: `0` (and absence) falls back. -/
def jsOrQ (x : Option ℚ) (d : ℚ) : ℚ :=
  match x with
  | some v => if v = 0 then d else v
  | none => d

/-- JS `x || d` on a nullable integer column: `0` (and absence) falls back. -/
def jsOrInt (x : Option Int) (d : Int) : Int :=
  match x with
  | some v => if v = 0 then d else v
  | none => d

/-- JS truthiness of a nullable integer (`if (x && p x)` guards). -/
def jsTruthyInt (x : Option Int) : Bool :=
  match x with
  | some v => v != 0
  | none => false

/-- The transition table of `validateStateTransition` (`validTransitions`),
keyed by the current status string.  Note that in JS an empty array is truthy,
so `COMPLETED` and `REFUNDED` pass the `!validTransitions[current]` test and
fail only the `includes` test. -/
def validTransitions : List (String × List String) :=
  [("PENDING", ["CONFIRMED", "CANCELLED"]),
   ("CONFIRMED", ["PAID", "CANCELLED"]),
   ("PAID", ["ACTIVE", "CANCELLED"]),
   ("ACTIVE", ["COMPLETED"]),
   ("COMPLETED", []),
   ("CANCELLED", ["REFUND_PENDING"]),
   ("REFUND_PENDING", ["REFUNDED"]),
   ("REFUNDED", [])]

/-- `BookingService.validateStateTransition` (service.js lines 549-574). -/
def validateStateTransition (currentStatus newStatus : String) : Except ApiError Unit :=
  match validTransitions.lookup currentStatus with
  | none => .error (.booking ("Invalid current status: " ++ currentStatus))
  | some allowed =>
      if newStatus ∈ allowed then .ok ()
      else .error (.booking ("Invalid status transition: " ++ currentStatus ++ " -> " ++ newStatus))

/-- The projection of a property loaded with `select: { cancellationPolicy }`
(as `cancelBooking` loads `booking.property`). -/
structure PolicyView where
  cancellationPolicy : Option CancellationPolicy
deriving DecidableEq, Repr

/-- The parts of the loaded booking that `calculateCancellationFee` reads.
`startHours` is the booking's `startDate` as clock time in hours (a booking
starting on day `d` starts at hour `24*d`); `property` is `none` when the
`property` relation is absent, in which case the JS code throws while reading
`.cancellationPolicy` and the surrounding `catch` returns the fixed 50% fee. -/
structure FeeBookingView where
  totalPrice : ℚ
  startHours : ℚ
  property : Option PolicyView
deriving DecidableEq, Repr

/-- The `policy = booking.property.cancellationPolicy || {}` fallback: an
empty policy object, every field absent. -/
def emptyPolicy : CancellationPolicy := ⟨none, none, none, none, none⟩

/-- `this.CANCELLATION_WINDOW` (constructor, 48 hours). -/
def CANCELLATION_WINDOW : ℚ := 48

/-- `BookingService.calculateCancellationFee` (service.js lines 466-498).
`now` is the current clock time in hours; `hoursUntilCheckin` models
`DateTime.fromJSDate(booking.startDate).diffNow("hours").hours`. -/
def calculateCancellationFee (booking : FeeBookingView) (now : ℚ) : ℚ :=
  match booking.property with
  | none => booking.totalPrice * (1/2)
  | some prop =>
      let policy := prop.cancellationPolicy.getD emptyPolicy
      let hoursUntilCheckin := booking.startHours - now
      if hoursUntilCheckin < 0 then booking.totalPrice
      else if hoursUntilCheckin < jsOrQ policy.strictWindow 24 then
        booking.totalPrice * jsOrQ policy.strictFee 1
      else if hoursUntilCheckin < jsOrQ policy.cancellationWindowHours CANCELLATION_WINDOW then
        booking.totalPrice * jsOrQ policy.feePercentage (1/2)
      else booking.totalPrice * jsOrQ policy.flexibleFee 0

/-- `BookingService.releaseAvailabilitySlots` (service.js lines 368-395):
`updateMany` over the property's slots with `startDate: { gte: start }`,
`endDate: { lte: end }`, `isAvailable: false`, setting them available and
clearing `bookingId`. -/
def releaseAvailabilitySlots (availability : List AvailabilitySlot) (propertyId : String)
    (startDate endDate : Int) : List AvailabilitySlot :=
  availability.map fun sl =>
    if sl.propertyId == propertyId && decide (startDate ≤ sl.startDate) &&
       decide (sl.endDate ≤ endDate) && !sl.isAvailable then
      {sl with isAvailable := true, bookingId := none}
    else sl

/-- `BookingService.cancelBooking` (service.js lines 215-280), the body of the
`prisma.$transaction`.  The nested `payment.update` is the inlined payment
fields of the booking row; `Promise.all` of the row update and the slot
release is one atomic transaction, modelled as a single state change. -/
def cancelBooking (db : DB) (bookingId : Nat) (userId : String) (reason : Option String)
    (now : ℚ) : Except ApiError (DB × BookingRow) :=
  match db.bookings.find? (fun b => b.id == bookingId) with
  | none => .error (.notFound "Booking not found")
  | some booking =>
      if booking.tenantId ≠ userId then .error (.booking "Unauthorized to cancel this booking")
      else
        match validateStateTransition booking.status "CANCELLED" with
        | .error e => .error e
        | .ok _ =>
            let propertyView := (db.properties.find? (fun p => p.id == booking.propertyId)).map
              (fun p => PolicyView.mk p.cancellationPolicy)
            let cancellationFee := calculateCancellationFee
              ⟨booking.totalPrice, 24 * (booking.startDate : ℚ), propertyView⟩ now
            let refundAmount := booking.totalPrice - cancellationFee
            let updatedBooking := {booking with
              status := "CANCELLED",
              cancellationReason := reason,
              cancellationDate := some now,
              paymentStatus := if cancellationFee > 0 then "PARTIALLY_REFUNDED" else "REFUNDED",
              refundAmount := some refundAmount,
              refundedAt := some now}
            .ok ({db with
              bookings := db.bookings.map (fun b => if b.id == bookingId then updatedBooking else b),
              availability := releaseAvailabilitySlots db.availability booking.propertyId
                booking.startDate booking.endDate}, updatedBooking)

/-- `cancelBooking` as run inside `prisma.$transaction`: when the body throws,
nothing is committed and the store is unchanged. -/
def cancelBookingTxn (db : DB) (bookingId : Nat) (userId : String) (reason : Option String)
    (now : ℚ) : DB × Except ApiError BookingRow :=
  match cancelBooking db bookingId userId reason now with
  | .ok (db', b) => (db', .ok b)
  | .error e => (db, .error e)

/-- Fee-claim counterexample input: a booking 10 hours before check-in whose
policy explicitly sets the strict fee ratio to `0`. -/
def feeBookingZeroStrict : FeeBookingView :=
  ⟨100, 10, some ⟨some ⟨none, some 0, none, none, none⟩⟩⟩

/-- Scenario-B property: no stored cancellation policy (all defaults). -/
def scenarioBProperty : Property :=
  ⟨"prop-b", "APPROVED", 4, some 2, some 30, 100, "USD", none⟩

/-- Scenario-B booking: booking 1, tenant `tenant-1`, `PENDING`, days
[10,12), total price 330. -/
def scenarioBBooking : BookingRow :=
  ⟨1, "prop-b", "tenant-1", 10, 12, 2, 0, 0, "PENDING", 300, 30, 0, 330,
   none, none, none, "PENDING", 330, none, none, "card"⟩

/-- Scenario-B store. -/
def scenarioBDb : DB :=
  ⟨[scenarioBProperty], [scenarioBBooking], [⟨1, "prop-b", 10, 12, some 150, false, some 1⟩]⟩

/-- Scenario-B booking after cancellation 10 hours before check-in: full fee,
zero refund, partially refunded payment. -/
def scenarioBCancelled : BookingRow :=
  {scenarioBBooking with
    status := "CANCELLED",
    cancellationDate := some 230,
    paymentStatus := "PARTIALLY_REFUNDED",
    refundAmount := some 0,
    refundedAt := some 230}

/-- Scenario-B store after the cancellation (slot released). -/
def scenarioBDbAfter : DB :=
  ⟨[scenarioBProperty], [scenarioBCancelled], [⟨1, "prop-b", 10, 12, some 150, true, none⟩]⟩

/-- `this.MIN_BOOKING_DAYS` (constructor, 1 day); the fallback of
`property.minStay || this.MIN_BOOKING_DAYS`. -/
def MIN_BOOKING_DAYS : Int := 1

/-- The day-by-day `while (currentDate < end)` walk of
`checkAvailabilityWithLock`: every day of `[current, endDate)` must lie inside
some candidate slot, else a `ConflictError` naming the date. -/
def walkDays (availability : List AvailabilitySlot) (current endDate : Int) :
    Except ApiError Unit :=
  if current < endDate then
    if availability.any (fun sl => decide (sl.startDate ≤ current) && decide (current < sl.endDate)) then
      walkDays availability (current + 1) endDate
    else .error (.conflict ("Date " ++ toString current ++ " is not available"))
  else .ok ()
termination_by (endDate - current).toNat
decreasing_by omega

/-- `BookingService.checkAvailabilityWithLock` (service.js lines 283-334):
fetch the property's slots with `startDate ≤ end`, `start ≤ endDate`,
`isAvailable: true`, `bookingId: null`, ordered by start date; conflict if
none; then day-walk the requested range. -/
def checkAvailabilityWithLock (availability : List AvailabilitySlot) (propertyId : String)
    (startDate endDate : Int) : Except ApiError (List AvailabilitySlot) :=
  let slots := (availability.filter (fun sl =>
      sl.propertyId == propertyId && decide (sl.startDate ≤ endDate) &&
      decide (startDate ≤ sl.endDate) && sl.isAvailable && sl.bookingId.isNone)).mergeSort
    (fun a b => decide (a.startDate ≤ b.startDate))
  if slots.isEmpty then .error (.conflict "No availability for selected dates")
  else
    match walkDays slots startDate endDate with
    | .error e => .error e
    | .ok _ => .ok slots

/-- `BookingService.updateAvailabilitySlots` (service.js lines 337-365):
`updateMany` claiming the property's slots with `startDate < end`,
`endDate > start`, `isAvailable: true`, `bookingId: null`. -/
def updateAvailabilitySlots (availability : List AvailabilitySlot) (propertyId : String)
    (bookingId : Nat) (startDate endDate : Int) : List AvailabilitySlot :=
  availability.map fun sl =>
    if sl.propertyId == propertyId && decide (sl.startDate < endDate) &&
       decide (startDate < sl.endDate) && sl.isAvailable && sl.bookingId.isNone then
      {sl with isAvailable := false, bookingId := some bookingId}
    else sl

/-- Result of `calculateTotalPrice`. -/
structure PriceResult where
  totalPrice : ℚ
  basePrice : ℚ
  taxes : ℚ
  fees : ℚ
  currency : String
  dailyPrices : List ℚ
deriving DecidableEq, Repr

/-- The per-day pricing loop of `calculateTotalPrice`: for each day of
`[current, endDate)` take the first covering slot's price — `slot.price` is a
nullable Prisma `Decimal`, so only `null` falls back to the property's base
price — accumulating the base price and the daily price list. -/
def priceDays (availability : List AvailabilitySlot) (propertyBasePrice : ℚ)
    (current endDate : Int) : Except ApiError (ℚ × List ℚ) :=
  if current < endDate then
    match availability.find? (fun sl => decide (sl.startDate ≤ current) && decide (current < sl.endDate)) with
    | none => .error (.booking ("No availability for " ++ toString current))
    | some slot =>
        match priceDays availability propertyBasePrice (current + 1) endDate with
        | .error e => .error e
        | .ok (rest, dailyPrices) =>
            .ok (slot.price.getD propertyBasePrice + rest,
                 slot.price.getD propertyBasePrice :: dailyPrices)
  else .ok (0, [])
termination_by (endDate - current).toNat
decreasing_by omega

/-- `BookingService.calculateTotalPrice` (service.js lines 398-463): property
lookup for the base price, per-day summation, 10% taxes, a flat 20 extra-guest
fee when `guestCount > 2`; the surrounding `catch` rewraps any error as
`BookingError("Failed to calculate booking price")`. -/
def calculateTotalPrice (db : DB) (propertyId : String) (availability : List AvailabilitySlot)
    (startDate endDate : Int) (guestCount : Nat) : Except ApiError PriceResult :=
  let inner : Except ApiError PriceResult :=
    match db.properties.find? (fun p => p.id == propertyId) with
    | none => .error (.notFound "Property not found for price calculation")
    | some property =>
        match priceDays availability property.basePrice startDate endDate with
        | .error e => .error e
        | .ok (basePrice, dailyPrices) =>
            let taxes := basePrice * (1/10)
            let fees : ℚ := if guestCount > 2 then 20 else 0
            .ok ⟨basePrice + taxes + fees, basePrice, taxes, fees, property.currency, dailyPrices⟩
  match inner with
  | .ok r => .ok r
  | .error _ => .error (.booking "Failed to calculate booking price")

/-- `BookingService.createBooking` (service.js lines 27-195): the validations
before the lock, then the transaction body — property lookup and checks,
coverage check, pricing, booking+payment creation, slot claim.  The UUID
validator is an external library call, passed in as `isValidUUID`; lock
handling is modelled separately (see `SysState.step`); `newBookingId` is the
id the store assigns to the created row.  The `!startDate || !endDate` part of
the missing-parameter check cannot fire for `Date` objects (always truthy), so
only the id emptiness checks remain. -/
def createBooking (isValidUUID : String → Bool) (db : DB) (propertyId userId : String)
    (startDate endDate : Int) (adults children infants : Nat) (paymentMethod : String)
    (newBookingId : Nat) : Except ApiError (DB × BookingRow) :=
  if !isValidUUID propertyId then
    .error (.validation ("Invalid property ID format: " ++ propertyId))
  else if !isValidUUID userId then
    .error (.validation ("Invalid user ID format: " ++ userId))
  else if propertyId = "" ∨ userId = "" then
    .error (.validation "Missing required booking parameters")
  else if endDate ≤ startDate then
    .error (.validation "End date must be after start date")
  else
    match db.properties.find? (fun p => p.id == propertyId) with
    | none => .error (.notFound "Property not found")
    | some property =>
        if property.status ≠ "APPROVED" then
          .error (.booking "Property is not available for booking")
        else if adults + children > property.maxGuests then
          .error (.booking ("Property can only accommodate " ++
            toString property.maxGuests ++ " guests"))
        else if endDate - startDate < jsOrInt property.minStay MIN_BOOKING_DAYS then
          .error (.booking ("Minimum stay is " ++
            toString (jsOrInt property.minStay MIN_BOOKING_DAYS) ++ " days"))
        else if jsTruthyInt property.maxStay &&
            decide (endDate - startDate > property.maxStay.getD 0) then
          .error (.booking ("Maximum stay is " ++ toString (property.maxStay.getD 0) ++ " days"))
        else
          match checkAvailabilityWithLock db.availability propertyId startDate endDate with
          | .error e => .error e
          | .ok availability =>
              match calculateTotalPrice db propertyId availability startDate endDate
                  (adults + children) with
              | .error e => .error e
              | .ok pr =>
                  let booking : BookingRow :=
                    ⟨newBookingId, propertyId, userId, startDate, endDate, adults, children,
                     infants, "PENDING", pr.basePrice, pr.taxes, pr.fees, pr.totalPrice,
                     none, none, none, "PENDING", pr.totalPrice, none, none, paymentMethod⟩
                  .ok ({db with
                    bookings := db.bookings ++ [booking],
                    availability := updateAvailabilitySlots db.availability propertyId
                      newBookingId startDate endDate}, booking)

/-- Concrete example property for `createBooking` witnesses. -/
def exProperty : Property := ⟨"p1", "APPROVED", 4, none, none, 100, "USD", none⟩

/-- Concrete example store: two free day slots [0,1) and [1,2) on `p1`. -/
def exDb : DB :=
  ⟨[exProperty], [],
   [⟨1, "p1", 0, 1, some 100, true, none⟩, ⟨2, "p1", 1, 2, some 100, true, none⟩]⟩

/-- The booking `createBooking` creates on `exDb` for `[0,2)`, one adult. -/
def exBk : BookingRow :=
  ⟨7, "p1", "u1", 0, 2, 1, 0, 0, "PENDING", 200, 20, 0, 220,
   none, none, none, "PENDING", 220, none, none, "card"⟩

/-- `exDb` after that booking: both slots claimed by booking 7. -/
def exDbAfter : DB :=
  ⟨[exProperty], [exBk],
   [⟨1, "p1", 0, 1, some 100, false, some 7⟩, ⟨2, "p1", 1, 2, some 100, false, some 7⟩]⟩

/-- Spec-side day rate (spec section 4.3): the covering slot's price, falling
back to the property's base price when the slot carries none.  The value at an
uncovered day is irrelevant: pricing only succeeds when every day is covered. -/
def specDayRate (availability : List AvailabilitySlot) (propertyBasePrice : ℚ) (d : Int) : ℚ :=
  match availability.find? (fun sl => decide (sl.startDate ≤ d) && decide (d < sl.endDate)) with
  | some slot => slot.price.getD propertyBasePrice
  | none => 0

/-- Spec-side base price: the sum of the day rates over `[startDate, endDate)`. -/
def specDaySum (availability : List AvailabilitySlot) (propertyBasePrice : ℚ)
    (startDate endDate : Int) : ℚ :=
  ((List.range (endDate - startDate).toNat).map
    (fun k : Nat => specDayRate availability propertyBasePrice (startDate + (k : Int)))).sum

/-- Scenario-A slots: five consecutive day slots priced 100/night. -/
def scenarioASlots : List AvailabilitySlot :=
  [⟨1, "prop-a", 0, 1, some 100, true, none⟩, ⟨2, "prop-a", 1, 2, some 100, true, none⟩,
   ⟨3, "prop-a", 2, 3, some 100, true, none⟩, ⟨4, "prop-a", 3, 4, some 100, true, none⟩,
   ⟨5, "prop-a", 4, 5, some 100, true, none⟩]

/-- Scenario-A property: minStay 2, maxStay 30, maxGuests 4, basePrice 100. -/
def scenarioAProperty : Property := ⟨"prop-a", "APPROVED", 4, some 2, some 30, 100, "USD", none⟩

/-- Scenario-A store. -/
def scenarioADb : DB := ⟨[scenarioAProperty], [], scenarioASlots⟩

/-- The `updates` argument of `updateBooking` restricted to the fields the
modelled path reads: an attempted `propertyId` change and new dates.  Other
spread-through fields do not interact with the conflict scan or the slots. -/
structure UpdateArgs where
  propertyId : Option String
  startDate : Option Int
  endDate : Option Int
deriving DecidableEq, Repr

/-- The `where` clause of the conflicting-booking scan in `updateBooking`
(service.js lines 788-797): same property, different id, and either
`startDate < end ∧ endDate > start` or `startDate ∈ [start, end]`.  Note: no
status condition — `CANCELLED` bookings are scanned too. -/
def updateConflictPred (propertyId : String) (bookingId : Nat) (startDate endDate : Int)
    (b : BookingRow) : Bool :=
  b.propertyId == propertyId && b.id != bookingId &&
  ((decide (b.startDate < endDate) && decide (b.endDate > startDate)) ||
   (decide (b.startDate ≥ startDate) && decide (b.startDate ≤ endDate)))

/-- `BookingService.updateBooking` (service.js lines 720-875), the transaction
body.  The booking is loaded with its property (`minStay`, `maxStay`); a
missing property relation would make the JS throw a `TypeError` while reading
`booking.property.id`, modelled as a `DatabaseError`.  Dates are "being
updated" when either date field is present (truthy); stay checks guard with
JS truthiness of `minStay`/`maxStay`; on a clear scan the row is updated and
the slots assigned to this booking are released, then available slots
overlapping the new range are claimed — all in the one transaction. -/
def updateBooking (db : DB) (bookingId : Nat) (userId : String) (updates : UpdateArgs)
    (now : ℚ) : Except ApiError (DB × BookingRow) :=
  match db.bookings.find? (fun b => b.id == bookingId) with
  | none => .error (.notFound "Booking not found")
  | some booking =>
      if booking.tenantId ≠ userId then .error (.booking "Unauthorized to update this booking")
      else
        match db.properties.find? (fun p => p.id == booking.propertyId) with
        | none => .error (.database "booking.property is missing")
        | some property =>
            if (match updates.propertyId with
                | some p => !(p == "") && !(p == booking.propertyId)
                | none => false) then
              .error (.validation "Cannot change booking property after creation")
            else if updates.startDate.isSome || updates.endDate.isSome then
              let startDate := updates.startDate.getD booking.startDate
              let endDate := updates.endDate.getD booking.endDate
              if endDate ≤ startDate then
                .error (.validation "End date must be after start date")
              else if jsTruthyInt property.minStay &&
                  decide (endDate - startDate < property.minStay.getD 0) then
                .error (.validation ("Minimum stay is " ++
                  toString (property.minStay.getD 0) ++ " days"))
              else if jsTruthyInt property.maxStay &&
                  decide (endDate - startDate > property.maxStay.getD 0) then
                .error (.validation ("Maximum stay is " ++
                  toString (property.maxStay.getD 0) ++ " days"))
              else if (db.bookings.filter
                  (updateConflictPred booking.propertyId bookingId startDate endDate)).length
                  > 0 then
                .error (.conflict "Selected dates are not available")
              else
                let updatedBooking := {booking with
                  startDate := startDate, endDate := endDate, updatedAt := some now}
                let released := db.availability.map (fun sl =>
                  if sl.propertyId == booking.propertyId && sl.bookingId == some bookingId then
                    {sl with isAvailable := true, bookingId := none}
                  else sl)
                let reserved := released.map (fun sl =>
                  if sl.propertyId == booking.propertyId && decide (sl.startDate < endDate) &&
                     decide (sl.endDate > startDate) && sl.isAvailable then
                    {sl with isAvailable := false, bookingId := some bookingId}
                  else sl)
                .ok ({db with
                  bookings := db.bookings.map
                    (fun b => if b.id == bookingId then updatedBooking else b),
                  availability := reserved}, updatedBooking)
            else
              let updatedBooking := {booking with updatedAt := some now}
              .ok ({db with
                bookings := db.bookings.map
                  (fun b => if b.id == bookingId then updatedBooking else b)},
                updatedBooking)

/-- C9 counterexample store: booking 1 (`PENDING`, days [10,12)) and a
`CANCELLED` booking 2 covering [0,20) on the same property; the new dates
[12,14) are free in the calendar. -/
def c9Property : Property := ⟨"prop-9", "APPROVED", 4, none, none, 100, "USD", none⟩

/-- C9 counterexample: the booking being re-dated. -/
def c9Booking1 : BookingRow :=
  ⟨1, "prop-9", "u9", 10, 12, 1, 0, 0, "PENDING", 200, 20, 0, 220,
   none, none, none, "PENDING", 220, none, none, "card"⟩

/-- C9 counterexample: the cancelled overlapping booking. -/
def c9Cancelled : BookingRow :=
  ⟨2, "prop-9", "other", 0, 20, 1, 0, 0, "CANCELLED", 0, 0, 0, 0,
   none, none, none, "REFUNDED", 0, none, none, "card"⟩

/-- C9 counterexample store. -/
def c9Db : DB :=
  ⟨[c9Property], [c9Booking1, c9Cancelled], [⟨1, "prop-9", 12, 14, some 100, true, none⟩]⟩

/-- Program counter of a `createBooking` caller in the two-process
interleaving model: acquiring the lock (`acquireLockWithRetry`), running the
transaction body, deleting the lock key in the `finally`, or finished. -/
inductive PC where
  | acq
  | txn
  | rel
  | done
deriving DecidableEq, Repr

/-- Decidable equality of `Except` results (needed to evaluate outcomes). -/
instance instDecEqExcept {ε α : Type} [DecidableEq ε] [DecidableEq α] :
    DecidableEq (Except ε α) := fun a b =>
  match a, b with
  | .ok x, .ok y =>
      if h : x = y then isTrue (by rw [h]) else isFalse (fun hc => h (Except.ok.inj hc))
  | .ok _, .error _ => isFalse (fun hc => Except.noConfusion hc)
  | .error _, .ok _ => isFalse (fun hc => Except.noConfusion hc)
  | .error x, .error y =>
      if h : x = y then isTrue (by rw [h]) else isFalse (fun hc => h (Except.error.inj hc))

/-- One caller's state: program counter, remaining lock attempts (the source
default is `retries = 3`), and the recorded outcome (`.ok` with the created
booking id, or the error). -/
structure ProcState where
  pc : PC
  retries : Nat
  result : Option (Except ApiError Nat)
deriving DecidableEq, Repr

/-- A `createBooking` request (the arguments of one call). -/
structure BookingReq where
  propertyId : String
  userId : String
  startDate : Int
  endDate : Int
  adults : Nat
  children : Nat
  infants : Nat
  paymentMethod : String
deriving DecidableEq, Repr

/-- `createBooking` applied to a request record. -/
def runCreate (isValidUUID : String → Bool) (db : DB) (r : BookingReq) (newBookingId : Nat) :
    Except ApiError (DB × BookingRow) :=
  createBooking isValidUUID db r.propertyId r.userId r.startDate r.endDate r.adults r.children
    r.infants r.paymentMethod newBookingId

/-- The per-property lock key, service.js line 52:
`` `property:${propertyId}:lock` ``. -/
def lockKey (propertyId : String) : String := "property:" ++ propertyId ++ ":lock"

/-- Shared state of two concurrent `createBooking` calls on the same property:
the redis lock for that property's key (`some i` = held by process `i`), the
store, and the two process states.  The store is externalized and shared; the
lock's atomic `SET NX` and the transaction body are the atomic actions. -/
structure SysState where
  lock : Option Bool
  db : DB
  procs : Bool → ProcState

/-- Replace one process's state. -/
def SysState.setProc (sys : SysState) (i : Bool) (p : ProcState) : SysState :=
  {sys with procs := fun j => if j = i then p else sys.procs j}

/-- One atomic action of process `i`:
* `acq`: one `redis.set(key, "locked", PX, NX)` attempt — acquires when the
  key is free, otherwise consumes one of the remaining attempts and, when they
  are exhausted, records the lock `ConflictError` (service.js lines 59-63);
* `txn`: the transaction body, run atomically against the shared store (the
  interactive transaction commits the booking+claim or aborts with nothing
  committed);
* `rel`: the `finally` clause's `redis.del` of the lock key;
* `done`: no further actions.
TTL expiry of the lock is not modelled: the spec assumes the critical section
finishes within the 5000 ms TTL. -/
def sysStep (isValidUUID : String → Bool) (req : Bool → BookingReq) (bid : Bool → Nat)
    (sys : SysState) (i : Bool) : SysState :=
  let p := sys.procs i
  match p.pc with
  | .done => sys
  | .acq =>
      match sys.lock with
      | none => {sys.setProc i {p with pc := .txn} with lock := some i}
      | some _ =>
          if p.retries ≤ 1 then
            sys.setProc i {p with pc := .done, result := some (.error (.conflict
              "Property is currently being modified by another request"))}
          else sys.setProc i {p with retries := p.retries - 1}
  | .txn =>
      match runCreate isValidUUID sys.db (req i) (bid i) with
      | .ok out =>
          {sys.setProc i {p with pc := .rel, result := some (.ok out.2.id)} with db := out.1}
      | .error e => sys.setProc i {p with pc := .rel, result := some (.error e)}
  | .rel => {sys.setProc i {p with pc := .done} with lock := none}

/-- Run a schedule (the order in which the scheduler lets the two processes
take their atomic actions). -/
def sysRun (isValidUUID : String → Bool) (req : Bool → BookingReq) (bid : Bool → Nat) :
    SysState → List Bool → SysState
  | sys, [] => sys
  | sys, i :: rest => sysRun isValidUUID req bid (sysStep isValidUUID req bid sys i) rest

/-- Initial state: lock free, shared store `db`, both processes about to
attempt the lock with 3 attempts. -/
def sysInit (db : DB) : SysState := ⟨none, db, fun _ => ⟨.acq, 3, none⟩⟩

/-- Invariant of the two-process system (relative to the initial store `db0`).
Phase A: nobody has run their transaction yet — the store is untouched, a
process is either still acquiring, holding the lock before its transaction,
or has given up on the lock (which requires the other process to be holding
it before its own transaction).  Phase B: some winner `w` has atomically run
its transaction successfully; the loser can only still be acquiring, be about
to run its transaction (after the winner released), have failed it with a
`ConflictError`, or have given up on the lock. -/
def SysInv (isValidUUID : String → Bool) (req : Bool → BookingReq) (bid : Bool → Nat)
    (db0 : DB) (sys : SysState) : Prop :=
  (sys.db = db0 ∧
   (∀ i, ((sys.procs i).pc = .acq → (sys.procs i).result = none ∧ 1 ≤ (sys.procs i).retries) ∧
         ((sys.procs i).pc = .txn → (sys.procs i).result = none ∧ sys.lock = some i) ∧
         ((sys.procs i).pc ≠ .rel) ∧
         ((sys.procs i).pc = .done →
           (∃ m, (sys.procs i).result = some (.error (.conflict m))) ∧
           sys.lock = some (!i) ∧ (sys.procs (!i)).pc = .txn)) ∧
   (∀ i, sys.lock = some i → (sys.procs i).pc = .txn))
  ∨
  (∃ w out, runCreate isValidUUID db0 (req w) (bid w) = .ok out ∧
    sys.db = out.1 ∧
    (sys.procs w).result = some (.ok (bid w)) ∧
    ((sys.procs w).pc = .rel ∨ (sys.procs w).pc = .done) ∧
    ((sys.procs w).pc = .rel → sys.lock = some w) ∧
    ((sys.procs (!w)).pc = .acq →
      (sys.procs (!w)).result = none ∧ 1 ≤ (sys.procs (!w)).retries) ∧
    ((sys.procs (!w)).pc = .txn →
      (sys.procs (!w)).result = none ∧ sys.lock = some (!w) ∧ (sys.procs w).pc = .done) ∧
    ((sys.procs (!w)).pc = .rel →
      (∃ m, (sys.procs (!w)).result = some (.error (.conflict m))) ∧
      sys.lock = some (!w) ∧ (sys.procs w).pc = .done) ∧
    ((sys.procs (!w)).pc = .done →
      ∃ m, (sys.procs (!w)).result = some (.error (.conflict m))))

/-- Requests for the C2 witness: both want `[0,2)` on property `p1`. -/
def c2Req : Bool → BookingReq :=
  fun i => if i then ⟨"p1", "u2", 0, 2, 1, 0, 0, "card"⟩ else ⟨"p1", "u1", 0, 2, 1, 0, 0, "card"⟩

/-- Booking ids assigned by the store in the C2 witness. -/
def c2Bid : Bool → Nat := fun i => if i then 8 else 7

/-- The booking created for the second requester when it runs alone. -/
def exBk2 : BookingRow :=
  ⟨8, "p1", "u2", 0, 2, 1, 0, 0, "PENDING", 200, 20, 0, 220,
   none, none, none, "PENDING", 220, none, none, "card"⟩

/-- `exDb` after the second requester's booking (when it runs alone). -/
def exDbAfter2 : DB :=
  ⟨[exProperty], [exBk2],
   [⟨1, "p1", 0, 1, some 100, false, some 8⟩, ⟨2, "p1", 1, 2, some 100, false, some 8⟩]⟩

/-- The allowed `(current, target)` pairs exactly as the spec's transition
table states them (spec section 4.5). -/
def specAllowedPairs : List (String × String) :=
  [("PENDING", "CONFIRMED"), ("PENDING", "CANCELLED"),
   ("CONFIRMED", "PAID"), ("CONFIRMED", "CANCELLED"),
   ("PAID", "ACTIVE"), ("PAID", "CANCELLED"),
   ("ACTIVE", "COMPLETED"),
   ("CANCELLED", "REFUND_PENDING"),
   ("REFUND_PENDING", "REFUNDED")]

/-- Claim C3: for every pair `(current, target)` of status strings,
`validateStateTransition` succeeds exactly when the pair is in the spec's
transition table, and every failure (including an unknown current status)
is a `BookingError`. -/
theorem claim_C3 (current target : String) :
    (validateStateTransition current target = .ok () ↔ (current, target) ∈ specAllowedPairs) ∧
    (validateStateTransition current target = .ok () ∨
      ∃ m, validateStateTransition current target = .error (.booking m)) := by
  constructor
  · unfold validateStateTransition validTransitions
    by_cases h1 : current = "PENDING"
    · subst h1
      by_cases ht : target = "CONFIRMED" <;> by_cases ht2 : target = "CANCELLED" <;>
        simp_all [List.lookup, specAllowedPairs]
    · by_cases h2 : current = "CONFIRMED"
      · subst h2
        by_cases ht : target = "PAID" <;> by_cases ht2 : target = "CANCELLED" <;>
          simp_all [List.lookup, specAllowedPairs]
      · by_cases h3 : current = "PAID"
        · subst h3
          by_cases ht : target = "ACTIVE" <;> by_cases ht2 : target = "CANCELLED" <;>
            simp_all [List.lookup, specAllowedPairs]
        · by_cases h4 : current = "ACTIVE"
          · subst h4
            by_cases ht : target = "COMPLETED" <;> simp_all [List.lookup, specAllowedPairs]
          · by_cases h5 : current = "COMPLETED"
            · subst h5
              simp [List.lookup, specAllowedPairs]
            · by_cases h6 : current = "CANCELLED"
              · subst h6
                by_cases ht : target = "REFUND_PENDING" <;>
                  simp_all [List.lookup, specAllowedPairs]
              · by_cases h7 : current = "REFUND_PENDING"
                · subst h7
                  by_cases ht : target = "REFUNDED" <;>
                    simp_all [List.lookup, specAllowedPairs]
                · by_cases h8 : current = "REFUNDED"
                  · subst h8
                    simp [List.lookup, specAllowedPairs]
                  · have e1 : (current == "PENDING") = false := beq_eq_false_iff_ne.mpr h1
                    have e2 : (current == "CONFIRMED") = false := beq_eq_false_iff_ne.mpr h2
                    have e3 : (current == "PAID") = false := beq_eq_false_iff_ne.mpr h3
                    have e4 : (current == "ACTIVE") = false := beq_eq_false_iff_ne.mpr h4
                    have e5 : (current == "COMPLETED") = false := beq_eq_false_iff_ne.mpr h5
                    have e6 : (current == "CANCELLED") = false := beq_eq_false_iff_ne.mpr h6
                    have e7 : (current == "REFUND_PENDING") = false := beq_eq_false_iff_ne.mpr h7
                    have e8 : (current == "REFUNDED") = false := beq_eq_false_iff_ne.mpr h8
                    simp [List.lookup, e1, e2, e3, e4, e5, e6, e7, e8, specAllowedPairs,
                      Prod.ext_iff, h1, h2, h3, h4, h6, h7]
  · unfold validateStateTransition
    match h : validTransitions.lookup current with
    | none => exact Or.inr ⟨_, rfl⟩
    | some allowed =>
        by_cases hm : target ∈ allowed
        · exact Or.inl (by simp [hm])
        · exact Or.inr ⟨"Invalid status transition: " ++ current ++ " -> " ++ target,
            by simp [hm]⟩

/-- Witness for C3 at a concrete pair: `PENDING → CONFIRMED` is accepted. -/
theorem claim_C3_witness :
    validateStateTransition "PENDING" "CONFIRMED" = .ok () :=
  (claim_C3 "PENDING" "CONFIRMED").1.mpr (by decide)

/-- Helper: updating exactly the found row keeps it the `find?` result. -/
theorem find?_update {l : List BookingRow} {n : Nat} {bk u : BookingRow}
    (hfind : l.find? (fun b => b.id == n) = some bk) (hid : (u.id == n) = true) :
    (l.map (fun b => if b.id == n then u else b)).find? (fun b => b.id == n) = some u := by
  induction l with
  | nil => simp at hfind
  | cons a t ih =>
      by_cases ha : (a.id == n) = true
      · rw [List.map_cons, if_pos ha,
          @List.find?_cons_of_pos _ (fun b => b.id == n) u _ hid]
      · rw [@List.find?_cons_of_neg _ (fun b => b.id == n) a t ha] at hfind
        rw [List.map_cons, if_neg ha,
          @List.find?_cons_of_neg _ (fun b => b.id == n) a
            (List.map (fun b => if (b.id == n) = true then u else b) t) ha]
        exact ih hfind

/-- Claim C4 counterexample: with a stored policy whose strict fee ratio is
explicitly `0` and 10 hours until check-in, the code charges the default full
fee (100) instead of `totalPrice * strictFeeRatio = 0`, because the JS `||`
defaulting treats the stored `0` as absent. -/
theorem claim_C4_counterexample :
    calculateCancellationFee feeBookingZeroStrict 0 = 100 ∧
    feeBookingZeroStrict.totalPrice = 100 ∧
    feeBookingZeroStrict.property = some ⟨some ⟨none, some 0, none, none, none⟩⟩ ∧
    (0 : ℚ) ≤ feeBookingZeroStrict.startHours - 0 ∧
    feeBookingZeroStrict.startHours - 0 < 24 ∧
    calculateCancellationFee feeBookingZeroStrict 0 ≠ feeBookingZeroStrict.totalPrice * 0 := by
  refine ⟨?_, rfl, rfl, ?_, ?_, ?_⟩ <;>
    norm_num [calculateCancellationFee, feeBookingZeroStrict, jsOrQ, emptyPolicy,
      CANCELLATION_WINDOW]

/-- Claim C4 (amended): the tier structure is as claimed — full price after
check-in, strict ratio inside the strict window (default 24h), mid ratio
inside the cancellation window (default 48h), flexible ratio (default 0)
otherwise, and a fixed 50% fallback when reading the policy throws — but each
policy field falls back to its default not only when absent but also when its
stored value is `0` (JS `||` truthiness). -/
theorem claim_C4_amended (b : FeeBookingView) (now : ℚ) :
    (b.property = none → calculateCancellationFee b now = b.totalPrice * (1/2)) ∧
    (∀ pv, b.property = some pv →
      (b.startHours - now < 0 → calculateCancellationFee b now = b.totalPrice) ∧
      (0 ≤ b.startHours - now →
        b.startHours - now < jsOrQ (pv.cancellationPolicy.getD emptyPolicy).strictWindow 24 →
        calculateCancellationFee b now =
          b.totalPrice * jsOrQ (pv.cancellationPolicy.getD emptyPolicy).strictFee 1) ∧
      (0 ≤ b.startHours - now →
        ¬ b.startHours - now < jsOrQ (pv.cancellationPolicy.getD emptyPolicy).strictWindow 24 →
        b.startHours - now < jsOrQ (pv.cancellationPolicy.getD emptyPolicy).cancellationWindowHours 48 →
        calculateCancellationFee b now =
          b.totalPrice * jsOrQ (pv.cancellationPolicy.getD emptyPolicy).feePercentage (1/2)) ∧
      (0 ≤ b.startHours - now →
        ¬ b.startHours - now < jsOrQ (pv.cancellationPolicy.getD emptyPolicy).strictWindow 24 →
        ¬ b.startHours - now < jsOrQ (pv.cancellationPolicy.getD emptyPolicy).cancellationWindowHours 48 →
        calculateCancellationFee b now =
          b.totalPrice * jsOrQ (pv.cancellationPolicy.getD emptyPolicy).flexibleFee 0)) := by
  constructor
  · intro hnone
    simp [calculateCancellationFee, hnone]
  · intro pv hpv
    refine ⟨?_, ?_, ?_, ?_⟩ <;> intros <;>
      · unfold calculateCancellationFee
        rw [hpv]
        simp only [CANCELLATION_WINDOW]
        split_ifs <;> first | rfl | linarith

/-- Witness for C4 (amended) at a concrete input: with a missing property
relation the fee is the 50% fallback. -/
theorem claim_C4_amended_witness :
    calculateCancellationFee ⟨100, 0, none⟩ 0 = (100 : ℚ) * (1/2) :=
  (claim_C4_amended ⟨100, 0, none⟩ 0).1 rfl

/-- Claim C7 counterexample.  First half: a claimed slot ([0,3), bookingId 5)
*overlapping* the released range [1,3) but not contained in it is left
untouched, though the claim says every overlapping claimed slot is released.
Second half: releasing [0,3) (say for cancelling booking 5) resets a slot
claimed by the *different* booking 7, though the claim says that never
happens. -/
theorem claim_C7_counterexample :
    (releaseAvailabilitySlots [⟨1, "prop-1", 0, 3, some 100, false, some 5⟩] "prop-1" 1 3 =
        [⟨1, "prop-1", 0, 3, some 100, false, some 5⟩] ∧
      (0 : Int) < 3 ∧ (3 : Int) > 1) ∧
    (releaseAvailabilitySlots [⟨2, "prop-1", 1, 2, some 100, false, some 7⟩] "prop-1" 0 3 =
        [⟨2, "prop-1", 1, 2, some 100, true, none⟩]) := by
  refine ⟨⟨?_, by norm_num, by norm_num⟩, ?_⟩ <;> simp [releaseAvailabilitySlots]

/-- Claim C7 (amended): `releaseAvailabilitySlots` sets back to available
(`isAvailable := true`, `bookingId := none`) exactly those slots of the
property that are currently unavailable and whose interval is *contained* in
`[startDate, endDate]` (`startDate ≤ slot.startDate` and
`slot.endDate ≤ endDate`), regardless of which booking (if any) claimed them;
every other slot — including every slot of a different property — is
unchanged, and the slot list keeps its length and order. -/
theorem claim_C7_amended (availability : List AvailabilitySlot) (propertyId : String)
    (startDate endDate : Int) :
    (releaseAvailabilitySlots availability propertyId startDate endDate).length =
      availability.length ∧
    ∀ j (hj : j < availability.length),
      ∃ hj' : j < (releaseAvailabilitySlots availability propertyId startDate endDate).length,
        (releaseAvailabilitySlots availability propertyId startDate endDate).get ⟨j, hj'⟩ =
          (if (availability.get ⟨j, hj⟩).propertyId = propertyId ∧
              startDate ≤ (availability.get ⟨j, hj⟩).startDate ∧
              (availability.get ⟨j, hj⟩).endDate ≤ endDate ∧
              (availability.get ⟨j, hj⟩).isAvailable = false
           then {availability.get ⟨j, hj⟩ with isAvailable := true, bookingId := none}
           else availability.get ⟨j, hj⟩) := by
  constructor
  · simp [releaseAvailabilitySlots]
  · intro j hj
    refine ⟨by simpa [releaseAvailabilitySlots] using hj, ?_⟩
    simp only [releaseAvailabilitySlots, List.get_eq_getElem, List.getElem_map]
    by_cases h1 : availability[j].propertyId = propertyId <;>
      by_cases h2 : startDate ≤ availability[j].startDate <;>
      by_cases h3 : availability[j].endDate ≤ endDate <;>
      by_cases h4 : availability[j].isAvailable = false <;>
      simp [h1, h2, h3, h4, and_assoc]

/-- Witness for C7 (amended) at a concrete input: a contained claimed slot is
released. -/
theorem claim_C7_amended_witness :
    ∃ hj' : 0 < (releaseAvailabilitySlots [⟨2, "prop-1", 1, 2, some 100, false, some 7⟩]
        "prop-1" 0 3).length,
      (releaseAvailabilitySlots [⟨2, "prop-1", 1, 2, some 100, false, some 7⟩]
          "prop-1" 0 3).get ⟨0, hj'⟩ =
        {(⟨2, "prop-1", 1, 2, some 100, false, some 7⟩ : AvailabilitySlot) with
          isAvailable := true, bookingId := none} := by
  obtain ⟨hj', he⟩ :=
    (claim_C7_amended [⟨2, "prop-1", 1, 2, some 100, false, some 7⟩] "prop-1" 0 3).2
      0 (by simp)
  refine ⟨hj', ?_⟩
  rw [he]
  norm_num

/-- Helper: anatomy of a successful `cancelBooking` call. -/
theorem cancelBooking_ok_elim {db : DB} {bookingId : Nat} {userId : String}
    {reason : Option String} {now : ℚ} {db' : DB} {bk : BookingRow}
    (h : cancelBooking db bookingId userId reason now = .ok (db', bk)) :
    ∃ booking fee, db.bookings.find? (fun b => b.id == bookingId) = some booking ∧
      booking.tenantId = userId ∧
      validateStateTransition booking.status "CANCELLED" = .ok () ∧
      fee = calculateCancellationFee ⟨booking.totalPrice, 24 * (booking.startDate : ℚ),
        (db.properties.find? (fun p => p.id == booking.propertyId)).map
          (fun p => PolicyView.mk p.cancellationPolicy)⟩ now ∧
      bk = {booking with
        status := "CANCELLED",
        cancellationReason := reason,
        cancellationDate := some now,
        paymentStatus := if fee > 0 then "PARTIALLY_REFUNDED" else "REFUNDED",
        refundAmount := some (booking.totalPrice - fee),
        refundedAt := some now} ∧
      db' = {db with
        bookings := db.bookings.map (fun b => if b.id == bookingId then bk else b),
        availability := releaseAvailabilitySlots db.availability booking.propertyId
          booking.startDate booking.endDate} := by
  unfold cancelBooking at h
  split at h
  · exact absurd h (by simp)
  · rename_i booking hfind
    split at h
    · exact absurd h (by simp)
    · rename_i hten
      push_neg at hten
      split at h
      · exact absurd h (by simp)
      · rename_i u hval
        cases u
        simp only [Except.ok.injEq, Prod.mk.injEq] at h
        obtain ⟨hdb, hbk⟩ := h
        refine ⟨booking, _, hfind, hten, hval, rfl, hbk.symm, ?_⟩
        rw [← hdb, ← hbk]

/-- Helper: the scenario-B cancellation evaluated. -/
theorem scenarioB_cancel_eq :
    cancelBooking scenarioBDb 1 "tenant-1" none 230 = .ok (scenarioBDbAfter, scenarioBCancelled) := by
  norm_num [cancelBooking, scenarioBDb, scenarioBBooking, scenarioBProperty, scenarioBCancelled,
    scenarioBDbAfter, validateStateTransition, validTransitions, List.lookup, List.find?,
    calculateCancellationFee, jsOrQ, emptyPolicy, CANCELLATION_WINDOW, releaseAvailabilitySlots]

/-- Claim C5: a successful `cancelBooking` records `refundAmount =
totalPrice - fee`, sets the booking to `CANCELLED` with the given reason and
the cancellation date, marks the payment `REFUNDED` when the fee is zero and
`PARTIALLY_REFUNDED` when it is positive, and releases the booking's range;
in particular scenario B (cancelling 10 hours before check-in under the
default policy) yields fee `330 * 1`, refund `0` and a partially refunded
payment. -/
theorem claim_C5 :
    (∀ (db : DB) (bookingId : Nat) (userId : String) (reason : Option String) (now : ℚ)
        (db' : DB) (bk : BookingRow),
      cancelBooking db bookingId userId reason now = .ok (db', bk) →
      ∃ booking fee, db.bookings.find? (fun b => b.id == bookingId) = some booking ∧
        fee = calculateCancellationFee ⟨booking.totalPrice, 24 * (booking.startDate : ℚ),
          (db.properties.find? (fun p => p.id == booking.propertyId)).map
            (fun p => PolicyView.mk p.cancellationPolicy)⟩ now ∧
        bk.refundAmount = some (booking.totalPrice - fee) ∧
        bk.status = "CANCELLED" ∧
        bk.cancellationReason = reason ∧
        bk.cancellationDate = some now ∧
        (fee = 0 → bk.paymentStatus = "REFUNDED") ∧
        (0 < fee → bk.paymentStatus = "PARTIALLY_REFUNDED") ∧
        db'.availability = releaseAvailabilitySlots db.availability booking.propertyId
          booking.startDate booking.endDate) ∧
    (∃ db' bk, cancelBooking scenarioBDb 1 "tenant-1" none 230 = .ok (db', bk) ∧
      calculateCancellationFee ⟨330, 240, some ⟨none⟩⟩ 230 = 330 * 1 ∧
      bk.refundAmount = some 0 ∧
      bk.paymentStatus = "PARTIALLY_REFUNDED") := by
  constructor
  · intro db bookingId userId reason now db' bk h
    obtain ⟨booking, fee, hfind, hten, hval, hfee, hbk, hdb⟩ := cancelBooking_ok_elim h
    subst hbk hdb
    refine ⟨booking, fee, hfind, hfee, rfl, rfl, rfl, rfl, ?_, ?_, rfl⟩
    · intro h0
      simp [h0]
    · intro h0
      simp [show ¬ fee ≤ 0 from not_le.mpr h0, if_pos h0]
  · refine ⟨scenarioBDbAfter, scenarioBCancelled, scenarioB_cancel_eq, ?_, ?_, rfl⟩
    · norm_num [calculateCancellationFee, jsOrQ, emptyPolicy, CANCELLATION_WINDOW]
    · norm_num [scenarioBCancelled, scenarioBBooking]

/-- Witness for C5's universal part at the scenario-B input. -/
theorem claim_C5_witness :
    ∃ booking fee,
      scenarioBDb.bookings.find? (fun b => b.id == 1) = some booking ∧
      fee = calculateCancellationFee ⟨booking.totalPrice, 24 * (booking.startDate : ℚ),
        (scenarioBDb.properties.find? (fun p => p.id == booking.propertyId)).map
          (fun p => PolicyView.mk p.cancellationPolicy)⟩ 230 ∧
      scenarioBCancelled.refundAmount = some (booking.totalPrice - fee) ∧
      scenarioBCancelled.status = "CANCELLED" ∧
      scenarioBCancelled.cancellationReason = none ∧
      scenarioBCancelled.cancellationDate = some 230 ∧
      (fee = 0 → scenarioBCancelled.paymentStatus = "REFUNDED") ∧
      (0 < fee → scenarioBCancelled.paymentStatus = "PARTIALLY_REFUNDED") ∧
      scenarioBDbAfter.availability = releaseAvailabilitySlots scenarioBDb.availability
        booking.propertyId booking.startDate booking.endDate :=
  claim_C5.1 scenarioBDb 1 "tenant-1" none 230 scenarioBDbAfter scenarioBCancelled
    scenarioB_cancel_eq

/-- Claim C8: `cancelBooking` is effect-idempotent — after a successful
cancellation, calling it again leaves the store unchanged (the transaction
aborts before any slot release, so slots are not raised twice) and fails with
a `BookingError`, and the stored terminal refund amount is exactly the one the
single call computed. -/
theorem claim_C8 (db : DB) (bookingId : Nat) (userId : String) (reason reason2 : Option String)
    (now1 now2 : ℚ) (db1 : DB) (bk1 : BookingRow)
    (h : cancelBooking db bookingId userId reason now1 = .ok (db1, bk1)) :
    (cancelBookingTxn db1 bookingId userId reason2 now2).1 = db1 ∧
    (∃ m, (cancelBookingTxn db1 bookingId userId reason2 now2).2 = .error (.booking m)) ∧
    (db1.bookings.find? (fun b => b.id == bookingId)).map (fun b => b.refundAmount) =
      some bk1.refundAmount := by
  obtain ⟨booking, fee, hfind, hten, hval, hfee, hbk, hdb⟩ := cancelBooking_ok_elim h
  have hid0 : (booking.id == bookingId) = true :=
    @List.find?_some _ (fun b => b.id == bookingId) booking db.bookings hfind
  have hid : (bk1.id == bookingId) = true := by
    rw [hbk]
    exact hid0
  have hfind1 : db1.bookings.find? (fun b => b.id == bookingId) = some bk1 := by
    rw [hdb]
    exact find?_update hfind hid
  have hstatus : bk1.status = "CANCELLED" := by rw [hbk]
  have htenant : bk1.tenantId = userId := by rw [hbk]; exact hten
  have hv : validateStateTransition bk1.status "CANCELLED" =
      .error (.booking "Invalid status transition: CANCELLED -> CANCELLED") := by
    rw [hstatus]; rfl
  have herr : cancelBooking db1 bookingId userId reason2 now2 =
      .error (.booking "Invalid status transition: CANCELLED -> CANCELLED") := by
    unfold cancelBooking
    simp only [hfind1]
    simp [htenant, hv]
  refine ⟨?_, ⟨"Invalid status transition: CANCELLED -> CANCELLED", ?_⟩, ?_⟩
  · unfold cancelBookingTxn
    rw [herr]
  · unfold cancelBookingTxn
    rw [herr]
  · rw [hfind1]
    rfl

/-- Witness for C8 at the scenario-B input: the second cancellation attempt
leaves the cancelled store untouched and reports a `BookingError`. -/
theorem claim_C8_witness :
    (cancelBookingTxn scenarioBDbAfter 1 "tenant-1" none 500).1 = scenarioBDbAfter ∧
    (∃ m, (cancelBookingTxn scenarioBDbAfter 1 "tenant-1" none 500).2 = .error (.booking m)) ∧
    (scenarioBDbAfter.bookings.find? (fun b => b.id == 1)).map (fun b => b.refundAmount) =
      some scenarioBCancelled.refundAmount :=
  claim_C8 scenarioBDb 1 "tenant-1" none none 230 500 scenarioBDbAfter scenarioBCancelled
    scenarioB_cancel_eq

/-- Helper: a successful day-walk covers every day of the range. -/
theorem walkDays_ok_covered (availability : List AvailabilitySlot) (d : Int) :
    ∀ (n : Nat) (current endDate : Int), (endDate - current).toNat = n →
    walkDays availability current endDate = .ok () →
    current ≤ d → d < endDate →
    availability.any (fun sl => decide (sl.startDate ≤ d) && decide (d < sl.endDate)) = true := by
  intro n
  induction n with
  | zero =>
      intro current endDate hn _ hcd hde
      omega
  | succ n ih =>
      intro current endDate hn h hcd hde
      have hlt : current < endDate := by omega
      rw [walkDays, if_pos hlt] at h
      by_cases hcov : availability.any
          (fun sl => decide (sl.startDate ≤ current) && decide (current < sl.endDate)) = true
      · rw [if_pos hcov] at h
        by_cases hd : d = current
        · rw [hd]
          exact hcov
        · exact ih (current + 1) endDate (by omega) h (by omega) hde
      · rw [if_neg hcov] at h
        exact absurd h (by simp)

/-- Helper: the day-walk either succeeds or fails with a `ConflictError`. -/
theorem walkDays_shape (availability : List AvailabilitySlot) :
    ∀ (n : Nat) (current endDate : Int), (endDate - current).toNat = n →
    walkDays availability current endDate = .ok () ∨
      ∃ m, walkDays availability current endDate = .error (.conflict m) := by
  intro n
  induction n with
  | zero =>
      intro current endDate hn
      left
      rw [walkDays, if_neg (by omega)]
  | succ n ih =>
      intro current endDate hn
      rw [walkDays]
      by_cases hlt : current < endDate
      · rw [if_pos hlt]
        by_cases hcov : availability.any
            (fun sl => decide (sl.startDate ≤ current) && decide (current < sl.endDate)) = true
        · rw [if_pos hcov]
          exact ih (current + 1) endDate (by omega)
        · rw [if_neg hcov]
          exact Or.inr ⟨_, rfl⟩
      · rw [if_neg hlt]
        exact Or.inl rfl

/-- Helper: after `updateAvailabilitySlots` claims `[sw, ew)`, no slot of the
property that is still available and unclaimed covers any day of `[sw, ew)`. -/
theorem after_claim_no_cover {slots : List AvailabilitySlot} {pid : String} {bid : Nat}
    {sw ew : Int} {sl' : AvailabilitySlot}
    (hmem : sl' ∈ updateAvailabilitySlots slots pid bid sw ew)
    (hpid : sl'.propertyId = pid) (hav : sl'.isAvailable = true) (hnone : sl'.bookingId = none)
    {d : Int} (hd1 : sw ≤ d) (hd2 : d < ew) :
    ¬(sl'.startDate ≤ d ∧ d < sl'.endDate) := by
  rintro ⟨hc1, hc2⟩
  unfold updateAvailabilitySlots at hmem
  obtain ⟨pre, hpre, heq⟩ := List.mem_map.mp hmem
  by_cases hcond : (pre.propertyId == pid && decide (pre.startDate < ew) &&
      decide (sw < pre.endDate) && pre.isAvailable && pre.bookingId.isNone) = true
  · rw [if_pos hcond] at heq
    rw [← heq] at hav
    simp at hav
  · rw [if_neg hcond] at heq
    subst heq
    simp only [Bool.and_eq_true, beq_iff_eq, decide_eq_true_eq,
      Option.isNone_iff_eq_none, not_and] at hcond
    exact absurd hnone (hcond ⟨⟨⟨hpid, by omega⟩, by omega⟩, hav⟩)

/-- Helper: once a range has been claimed, any coverage check whose range
shares a day `d` with the claimed range fails with a `ConflictError`. -/
theorem check_conflict_after_claim {slots : List AvailabilitySlot} {pid : String} {bid : Nat}
    {sw ew sl el d : Int}
    (h1 : sl ≤ d) (h2 : d < el) (h3 : sw ≤ d) (h4 : d < ew) :
    ∃ m, checkAvailabilityWithLock (updateAvailabilitySlots slots pid bid sw ew) pid sl el =
      .error (.conflict m) := by
  unfold checkAvailabilityWithLock
  by_cases hemp : (((updateAvailabilitySlots slots pid bid sw ew).filter (fun s2 =>
      s2.propertyId == pid && decide (s2.startDate ≤ el) &&
      decide (sl ≤ s2.endDate) && s2.isAvailable && s2.bookingId.isNone)).mergeSort
    (fun a b => decide (a.startDate ≤ b.startDate))).isEmpty
  · exact ⟨_, by rw [if_pos hemp]⟩
  · rw [if_neg hemp]
    have hunc : (((updateAvailabilitySlots slots pid bid sw ew).filter (fun s2 =>
        s2.propertyId == pid && decide (s2.startDate ≤ el) &&
        decide (sl ≤ s2.endDate) && s2.isAvailable && s2.bookingId.isNone)).mergeSort
      (fun a b => decide (a.startDate ≤ b.startDate))).any
        (fun s2 => decide (s2.startDate ≤ d) && decide (d < s2.endDate)) = false := by
      by_contra hany
      rw [Bool.not_eq_false] at hany
      obtain ⟨a, ha, hcov⟩ := List.any_eq_true.mp hany
      obtain ⟨hmem0, hpred⟩ := List.mem_filter.mp (List.mem_mergeSort.mp ha)
      simp only [Bool.and_eq_true, beq_iff_eq, decide_eq_true_eq,
        Option.isNone_iff_eq_none] at hpred hcov
      exact after_claim_no_cover hmem0 hpred.1.1.1.1 hpred.1.2 hpred.2 h3 h4
        ⟨hcov.1, hcov.2⟩
    rcases walkDays_shape _ ((el - sl).toNat) sl el rfl with hok | ⟨m, hm⟩
    · have := walkDays_ok_covered _ d ((el - sl).toNat) sl el rfl hok h1 h2
      rw [hunc] at this
      exact absurd this (by simp)
    · exact ⟨m, by rw [hm]⟩

/-- Helper: anatomy of a successful `createBooking` call. -/
theorem createBooking_ok_elim {isValidUUID : String → Bool} {db : DB}
    {propertyId userId : String} {startDate endDate : Int}
    {adults children infants : Nat} {paymentMethod : String} {newBookingId : Nat}
    {db' : DB} {bk : BookingRow}
    (h : createBooking isValidUUID db propertyId userId startDate endDate adults children
      infants paymentMethod newBookingId = .ok (db', bk)) :
    isValidUUID propertyId = true ∧ isValidUUID userId = true ∧
    ¬(propertyId = "" ∨ userId = "") ∧ startDate < endDate ∧
    ∃ property availability pr,
      db.properties.find? (fun p => p.id == propertyId) = some property ∧
      property.status = "APPROVED" ∧
      ¬(adults + children > property.maxGuests) ∧
      ¬(endDate - startDate < jsOrInt property.minStay MIN_BOOKING_DAYS) ∧
      (jsTruthyInt property.maxStay &&
        decide (endDate - startDate > property.maxStay.getD 0)) = false ∧
      checkAvailabilityWithLock db.availability propertyId startDate endDate =
        .ok availability ∧
      calculateTotalPrice db propertyId availability startDate endDate (adults + children) =
        .ok pr ∧
      bk = ⟨newBookingId, propertyId, userId, startDate, endDate, adults, children, infants,
        "PENDING", pr.basePrice, pr.taxes, pr.fees, pr.totalPrice, none, none, none,
        "PENDING", pr.totalPrice, none, none, paymentMethod⟩ ∧
      db' = {db with
        bookings := db.bookings ++ [bk],
        availability := updateAvailabilitySlots db.availability propertyId newBookingId
          startDate endDate} := by
  unfold createBooking at h
  split at h
  · exact absurd h (by simp)
  · rename_i hc1
    split at h
    · exact absurd h (by simp)
    · rename_i hc2
      split at h
      · exact absurd h (by simp)
      · rename_i hc3
        split at h
        · exact absurd h (by simp)
        · rename_i hc4
          split at h
          · exact absurd h (by simp)
          · rename_i property hfind
            split at h
            · exact absurd h (by simp)
            · rename_i hstat
              split at h
              · exact absurd h (by simp)
              · rename_i hguests
                split at h
                · exact absurd h (by simp)
                · rename_i hmin
                  split at h
                  · exact absurd h (by simp)
                  · rename_i hmax
                    split at h
                    · exact absurd h (by simp)
                    · rename_i availability hcheck
                      split at h
                      · exact absurd h (by simp)
                      · rename_i pr hpr
                        simp only [Except.ok.injEq, Prod.mk.injEq] at h
                        obtain ⟨hdb, hbk⟩ := h
                        refine ⟨by simpa using hc1, by simpa using hc2, hc3, by omega,
                          property, availability, pr, hfind, by simpa using hstat,
                          hguests, hmin, by simpa using hmax, hcheck, hpr,
                          hbk.symm, ?_⟩
                        rw [← hdb, ← hbk]

/-- Claim C1: when `createBooking` succeeds, every slot of the property that
overlapped the booked range `[startDate, endDate)` and was available and
unclaimed is now claimed (`isAvailable := false`, `bookingId` set to the new
booking's id), and an immediately following `checkAvailabilityWithLock` on the
same exact range fails with a `ConflictError`. -/
theorem claim_C1 (isValidUUID : String → Bool) (db : DB) (propertyId userId : String)
    (startDate endDate : Int) (adults children infants : Nat) (paymentMethod : String)
    (newBookingId : Nat) (db' : DB) (bk : BookingRow)
    (h : createBooking isValidUUID db propertyId userId startDate endDate adults children
      infants paymentMethod newBookingId = .ok (db', bk)) :
    (∀ j (hj : j < db.availability.length),
      ((db.availability.get ⟨j, hj⟩).propertyId = propertyId ∧
       (db.availability.get ⟨j, hj⟩).startDate < endDate ∧
       startDate < (db.availability.get ⟨j, hj⟩).endDate ∧
       (db.availability.get ⟨j, hj⟩).isAvailable = true ∧
       (db.availability.get ⟨j, hj⟩).bookingId = none) →
      ∃ hj' : j < db'.availability.length,
        db'.availability.get ⟨j, hj'⟩ =
          {db.availability.get ⟨j, hj⟩ with isAvailable := false, bookingId := some bk.id}) ∧
    ∃ m, checkAvailabilityWithLock db'.availability propertyId startDate endDate =
      .error (.conflict m) := by
  obtain ⟨hu1, hu2, hmiss, hlt, property, availability, pr, hfind, hstat, hg, hmin, hmax,
    hcheck, hpr, hbk, hdb⟩ := createBooking_ok_elim h
  subst hdb
  subst hbk
  constructor
  · intro j hj hc
    simp only [List.get_eq_getElem] at hc
    obtain ⟨hp1, hp2, hp3, hp4, hp5⟩ := hc
    refine ⟨by simpa [updateAvailabilitySlots] using hj, ?_⟩
    simp [updateAvailabilitySlots, hp1, hp2, hp3, hp4, hp5]
  · exact check_conflict_after_claim (le_refl startDate) hlt (le_refl startDate) hlt

set_option maxRecDepth 2000 in
set_option maxHeartbeats 1000000 in
/-- Helper: `createBooking` evaluated on the concrete example store. -/
theorem exCreate_eq :
    createBooking (fun _ => true) exDb "p1" "u1" 0 2 1 0 0 "card" 7 = .ok (exDbAfter, exBk) := by
  have hsort : (([⟨1, "p1", 0, 1, some 100, true, none⟩,
      ⟨2, "p1", 1, 2, some 100, true, none⟩] : List AvailabilitySlot).mergeSort
        (fun a b => decide (a.startDate ≤ b.startDate))) =
      [⟨1, "p1", 0, 1, some 100, true, none⟩, ⟨2, "p1", 1, 2, some 100, true, none⟩] :=
    List.mergeSort_of_sorted (by simp)
  simp [createBooking, checkAvailabilityWithLock, walkDays, priceDays, calculateTotalPrice,
    updateAvailabilitySlots, exDb, exProperty, exBk, exDbAfter, jsOrInt, jsTruthyInt,
    MIN_BOOKING_DAYS, hsort]
  norm_num

/-- Witness for C1 at the concrete example: after the successful booking the
re-check on the same range reports a conflict. -/
theorem claim_C1_witness :
    ∃ m, checkAvailabilityWithLock exDbAfter.availability "p1" 0 2 = .error (.conflict m) :=
  (claim_C1 (fun _ => true) exDb "p1" "u1" 0 2 1 0 0 "card" 7 exDbAfter exBk exCreate_eq).2

/-- Helper: a successful pricing loop computes exactly the spec-side day sum. -/
theorem priceDays_basePrice (availability : List AvailabilitySlot) (base : ℚ) :
    ∀ (n : Nat) (current endDate : Int), (endDate - current).toNat = n →
    ∀ b ds, priceDays availability base current endDate = .ok (b, ds) →
    b = specDaySum availability base current endDate := by
  intro n
  induction n with
  | zero =>
      intro current endDate hn b ds h
      rw [priceDays, if_neg (by omega)] at h
      simp only [Except.ok.injEq, Prod.mk.injEq] at h
      obtain ⟨hb, -⟩ := h
      rw [← hb]
      simp [specDaySum, hn]
  | succ n ih =>
      intro current endDate hn b ds h
      have hlt : current < endDate := by omega
      rw [priceDays, if_pos hlt] at h
      cases hfindd : availability.find?
          (fun sl => decide (sl.startDate ≤ current) && decide (current < sl.endDate)) with
      | none => rw [hfindd] at h; exact absurd h (by simp)
      | some slot =>
          rw [hfindd] at h
          cases hrec : priceDays availability base (current + 1) endDate with
          | error e => rw [hrec] at h; exact absurd h (by simp)
          | ok p =>
              obtain ⟨rest, dps⟩ := p
              rw [hrec] at h
              simp only [Except.ok.injEq, Prod.mk.injEq] at h
              obtain ⟨hb, -⟩ := h
              have hrest := ih (current + 1) endDate (by omega) rest dps hrec
              rw [← hb, hrest]
              unfold specDaySum
              rw [show (endDate - current).toNat = n + 1 from hn,
                  show (endDate - (current + 1)).toNat = n from by omega,
                  List.range_succ_eq_map]
              rw [List.map_cons, List.sum_cons, List.map_map]
              congr 1
              · unfold specDayRate
                simp only [Nat.cast_zero, add_zero, hfindd]
              · apply congrArg List.sum
                apply List.map_congr_left
                intro k hk
                simp only [Function.comp_apply]
                unfold specDayRate
                have harg : current + ((k.succ : Nat) : Int) = current + 1 + (k : Int) := by
                  push_cast
                  ring
                rw [harg]

/-- Helper: scenario-A pricing evaluated — 3 nights at 100 with 2 guests. -/
theorem scenarioA_price_eq :
    calculateTotalPrice scenarioADb "prop-a" scenarioASlots 0 3 2 =
      .ok ⟨330, 300, 30, 0, "USD", [100, 100, 100]⟩ := by
  simp [calculateTotalPrice, priceDays, scenarioADb, scenarioAProperty, scenarioASlots]
  norm_num

/-- Claim C6: a successful `calculateTotalPrice` returns `basePrice` equal to
the sum over the booked days of the covering slot's price (falling back to the
property's base price when the slot carries none), `taxes = basePrice * 0.10`,
`fees = 20` iff `guestCount > 2` (else 0), and
`totalPrice = basePrice + taxes + fees`; scenario A (3 nights at 100/night,
2 adults) yields 300/30/0/330. -/
theorem claim_C6 :
    (∀ (db : DB) (propertyId : String) (availability : List AvailabilitySlot)
        (startDate endDate : Int) (guestCount : Nat) (r : PriceResult),
      calculateTotalPrice db propertyId availability startDate endDate guestCount = .ok r →
      ∃ property, db.properties.find? (fun p => p.id == propertyId) = some property ∧
        r.basePrice = specDaySum availability property.basePrice startDate endDate ∧
        r.taxes = r.basePrice * (1/10) ∧
        r.fees = (if guestCount > 2 then (20 : ℚ) else 0) ∧
        r.totalPrice = r.basePrice + r.taxes + r.fees) ∧
    calculateTotalPrice scenarioADb "prop-a" scenarioASlots 0 3 2 =
      .ok ⟨330, 300, 30, 0, "USD", [100, 100, 100]⟩ := by
  refine ⟨?_, scenarioA_price_eq⟩
  intro db propertyId availability startDate endDate guestCount r h
  unfold calculateTotalPrice at h
  split at h
  · exact absurd h (by simp)
  · rename_i property hfind
    split at h
    · exact absurd h (by simp)
    · rename_i basePrice dailyPrices hpd
      simp only [Except.ok.injEq] at h
      subst h
      exact ⟨property, hfind,
        priceDays_basePrice availability property.basePrice
          ((endDate - startDate).toNat) startDate endDate rfl basePrice dailyPrices hpd,
        rfl, rfl, rfl⟩

/-- Witness for C6's universal part at the scenario-A input. -/
theorem claim_C6_witness :
    ∃ property, scenarioADb.properties.find? (fun p => p.id == "prop-a") = some property ∧
      (⟨330, 300, 30, 0, "USD", [100, 100, 100]⟩ : PriceResult).basePrice =
        specDaySum scenarioASlots property.basePrice 0 3 ∧
      (⟨330, 300, 30, 0, "USD", [100, 100, 100]⟩ : PriceResult).taxes =
        (⟨330, 300, 30, 0, "USD", [100, 100, 100]⟩ : PriceResult).basePrice * (1/10) ∧
      (⟨330, 300, 30, 0, "USD", [100, 100, 100]⟩ : PriceResult).fees =
        (if 2 > 2 then (20 : ℚ) else 0) ∧
      (⟨330, 300, 30, 0, "USD", [100, 100, 100]⟩ : PriceResult).totalPrice =
        (⟨330, 300, 30, 0, "USD", [100, 100, 100]⟩ : PriceResult).basePrice +
        (⟨330, 300, 30, 0, "USD", [100, 100, 100]⟩ : PriceResult).taxes +
        (⟨330, 300, 30, 0, "USD", [100, 100, 100]⟩ : PriceResult).fees :=
  claim_C6.1 scenarioADb "prop-a" scenarioASlots 0 3 2
    ⟨330, 300, 30, 0, "USD", [100, 100, 100]⟩ scenarioA_price_eq

/-- Claim C10: two `createBooking` calls differing only in `infants` have the
same validation outcome (identical error, if any) and identical price
components; on success the created bookings differ only in the stored
`infants` field and the claimed slots are identical. -/
theorem claim_C10 (isValidUUID : String → Bool) (db : DB) (propertyId userId : String)
    (startDate endDate : Int) (adults children i1 i2 : Nat) (paymentMethod : String)
    (newBookingId : Nat) :
    (∃ err,
      createBooking isValidUUID db propertyId userId startDate endDate adults children i1
        paymentMethod newBookingId = .error err ∧
      createBooking isValidUUID db propertyId userId startDate endDate adults children i2
        paymentMethod newBookingId = .error err) ∨
    (∃ db1 bk1 db2 bk2,
      createBooking isValidUUID db propertyId userId startDate endDate adults children i1
        paymentMethod newBookingId = .ok (db1, bk1) ∧
      createBooking isValidUUID db propertyId userId startDate endDate adults children i2
        paymentMethod newBookingId = .ok (db2, bk2) ∧
      bk1.basePrice = bk2.basePrice ∧ bk1.taxes = bk2.taxes ∧ bk1.fees = bk2.fees ∧
      bk1.totalPrice = bk2.totalPrice ∧ bk1 = {bk2 with infants := i1} ∧
      db1.availability = db2.availability) := by
  cases hc1 : isValidUUID propertyId with
  | false =>
      exact Or.inl ⟨.validation ("Invalid property ID format: " ++ propertyId),
        by simp [createBooking, hc1], by simp [createBooking, hc1]⟩
  | true =>
  cases hc2 : isValidUUID userId with
  | false =>
      exact Or.inl ⟨.validation ("Invalid user ID format: " ++ userId),
        by simp [createBooking, hc1, hc2], by simp [createBooking, hc1, hc2]⟩
  | true =>
  by_cases hc3 : propertyId = "" ∨ userId = ""
  · exact Or.inl ⟨.validation "Missing required booking parameters",
      by simp [createBooking, hc1, hc2, hc3], by simp [createBooking, hc1, hc2, hc3]⟩
  · by_cases hc4 : endDate ≤ startDate
    · exact Or.inl ⟨.validation "End date must be after start date",
        by simp [createBooking, hc1, hc2, hc3, hc4],
        by simp [createBooking, hc1, hc2, hc3, hc4]⟩
    · cases hfind : db.properties.find? (fun p => p.id == propertyId) with
      | none =>
          exact Or.inl ⟨.notFound "Property not found",
            by simp [createBooking, hc1, hc2, hc3, hc4, hfind],
            by simp [createBooking, hc1, hc2, hc3, hc4, hfind]⟩
      | some property =>
      by_cases hstat : property.status ≠ "APPROVED"
      · exact Or.inl ⟨.booking "Property is not available for booking",
          by simp [createBooking, hc1, hc2, hc3, hc4, hfind, hstat],
          by simp [createBooking, hc1, hc2, hc3, hc4, hfind, hstat]⟩
      · by_cases hg : adults + children > property.maxGuests
        · exact Or.inl ⟨.booking ("Property can only accommodate " ++
              toString property.maxGuests ++ " guests"),
            by simp [createBooking, hc1, hc2, hc3, hc4, hfind, hstat, hg],
            by simp [createBooking, hc1, hc2, hc3, hc4, hfind, hstat, hg]⟩
        · by_cases hmin : endDate - startDate < jsOrInt property.minStay MIN_BOOKING_DAYS
          · exact Or.inl ⟨.booking ("Minimum stay is " ++
                toString (jsOrInt property.minStay MIN_BOOKING_DAYS) ++ " days"),
              by simp [createBooking, hc1, hc2, hc3, hc4, hfind, hstat, hg, hmin],
              by simp [createBooking, hc1, hc2, hc3, hc4, hfind, hstat, hg, hmin]⟩
          · cases hmax : (jsTruthyInt property.maxStay &&
                decide (endDate - startDate > property.maxStay.getD 0)) with
            | true =>
                exact Or.inl ⟨.booking ("Maximum stay is " ++
                    toString (property.maxStay.getD 0) ++ " days"),
                  by simp [createBooking, hc1, hc2, hc3, hc4, hfind, hstat, hg, hmin, hmax],
                  by simp [createBooking, hc1, hc2, hc3, hc4, hfind, hstat, hg, hmin, hmax]⟩
            | false =>
            cases hcheck : checkAvailabilityWithLock db.availability propertyId
                startDate endDate with
            | error e =>
                exact Or.inl ⟨e,
                  by simp [createBooking, hc1, hc2, hc3, hc4, hfind, hstat, hg, hmin, hmax,
                    hcheck],
                  by simp [createBooking, hc1, hc2, hc3, hc4, hfind, hstat, hg, hmin, hmax,
                    hcheck]⟩
            | ok availability =>
            cases hpr : calculateTotalPrice db propertyId availability startDate endDate
                (adults + children) with
            | error e =>
                exact Or.inl ⟨e,
                  by simp [createBooking, hc1, hc2, hc3, hc4, hfind, hstat, hg, hmin, hmax,
                    hcheck, hpr],
                  by simp [createBooking, hc1, hc2, hc3, hc4, hfind, hstat, hg, hmin, hmax,
                    hcheck, hpr]⟩
            | ok pr =>
                refine Or.inr ⟨{db with
                    bookings := db.bookings ++ [⟨newBookingId, propertyId, userId, startDate,
                      endDate, adults, children, i1, "PENDING", pr.basePrice, pr.taxes, pr.fees,
                      pr.totalPrice, none, none, none, "PENDING", pr.totalPrice, none, none,
                      paymentMethod⟩],
                    availability := updateAvailabilitySlots db.availability propertyId
                      newBookingId startDate endDate},
                  ⟨newBookingId, propertyId, userId, startDate, endDate, adults, children, i1,
                    "PENDING", pr.basePrice, pr.taxes, pr.fees, pr.totalPrice, none, none, none,
                    "PENDING", pr.totalPrice, none, none, paymentMethod⟩,
                  {db with
                    bookings := db.bookings ++ [⟨newBookingId, propertyId, userId, startDate,
                      endDate, adults, children, i2, "PENDING", pr.basePrice, pr.taxes, pr.fees,
                      pr.totalPrice, none, none, none, "PENDING", pr.totalPrice, none, none,
                      paymentMethod⟩],
                    availability := updateAvailabilitySlots db.availability propertyId
                      newBookingId startDate endDate},
                  ⟨newBookingId, propertyId, userId, startDate, endDate, adults, children, i2,
                    "PENDING", pr.basePrice, pr.taxes, pr.fees, pr.totalPrice, none, none, none,
                    "PENDING", pr.totalPrice, none, none, paymentMethod⟩,
                  by simp [createBooking, hc1, hc2, hc3, hc4, hfind, hstat, hg, hmin, hmax,
                    hcheck, hpr],
                  by simp [createBooking, hc1, hc2, hc3, hc4, hfind, hstat, hg, hmin, hmax,
                    hcheck, hpr],
                  rfl, rfl, rfl, rfl, rfl, rfl⟩

/-- Witness for C10 at the concrete example store: 0 and 3 infants give the
same successful outcome up to the stored `infants` field. -/
theorem claim_C10_witness :
    (∃ err,
      createBooking (fun _ => true) exDb "p1" "u1" 0 2 1 0 0 "card" 7 = .error err ∧
      createBooking (fun _ => true) exDb "p1" "u1" 0 2 1 0 3 "card" 7 = .error err) ∨
    (∃ db1 bk1 db2 bk2,
      createBooking (fun _ => true) exDb "p1" "u1" 0 2 1 0 0 "card" 7 = .ok (db1, bk1) ∧
      createBooking (fun _ => true) exDb "p1" "u1" 0 2 1 0 3 "card" 7 = .ok (db2, bk2) ∧
      bk1.basePrice = bk2.basePrice ∧ bk1.taxes = bk2.taxes ∧ bk1.fees = bk2.fees ∧
      bk1.totalPrice = bk2.totalPrice ∧ bk1 = {bk2 with infants := 0} ∧
      db1.availability = db2.availability) :=
  claim_C10 (fun _ => true) exDb "p1" "u1" 0 2 1 0 0 3 "card" 7

/-- Helper: the conflict-scan predicate in propositional form. -/
theorem updateConflictPred_iff {propertyId : String} {bookingId : Nat}
    {startDate endDate : Int} {b : BookingRow} :
    updateConflictPred propertyId bookingId startDate endDate b = true ↔
      (b.propertyId = propertyId ∧ b.id ≠ bookingId ∧
       ((b.startDate < endDate ∧ b.endDate > startDate) ∨
        (startDate ≤ b.startDate ∧ b.startDate ≤ endDate))) := by
  simp [updateConflictPred, and_assoc, bne_iff_ne]

/-- Claim C9 counterexample: updating booking 1 to the free dates [12,14)
raises `ConflictError` solely because a `CANCELLED` booking overlaps the new
range — the scan has no status filter, contradicting the claim that only
non-`CANCELLED` bookings count. -/
theorem claim_C9_counterexample :
    updateBooking c9Db 1 "u9" ⟨none, some 12, some 14⟩ 0 =
      .error (.conflict "Selected dates are not available") ∧
    (∀ b ∈ c9Db.bookings, b.id ≠ 1 → b.status = "CANCELLED") := by
  constructor
  · simp [updateBooking, c9Db, c9Booking1, c9Cancelled, c9Property, jsTruthyInt,
      updateConflictPred]
  · intro b hb hne
    simp only [c9Db, List.mem_cons, List.not_mem_nil, or_false] at hb
    rcases hb with rfl | rfl
    · exact absurd rfl hne
    · rfl

/-- Claim C9 (amended): when the booking exists, the caller is its tenant, no
property change is attempted, and the new dates pass the date and stay
validations, `updateBooking` raises `ConflictError` iff some *other* booking
of the property — of any status, `CANCELLED` included — overlaps the new range
or starts within `[newStart, newEnd]` (a closed interval, so a booking
starting exactly at `newEnd` also counts); otherwise, in one transaction, it
re-dates the row, releases every slot assigned to this booking, and claims the
available slots overlapping the new range. -/
theorem claim_C9_amended (db : DB) (bookingId : Nat) (userId : String)
    (newStart newEnd : Int) (now : ℚ) (booking : BookingRow) (property : Property)
    (hfind : db.bookings.find? (fun b => b.id == bookingId) = some booking)
    (hten : booking.tenantId = userId)
    (hprop : db.properties.find? (fun p => p.id == booking.propertyId) = some property)
    (hdates : newStart < newEnd)
    (hmin : (jsTruthyInt property.minStay &&
      decide (newEnd - newStart < property.minStay.getD 0)) = false)
    (hmax : (jsTruthyInt property.maxStay &&
      decide (newEnd - newStart > property.maxStay.getD 0)) = false) :
    (updateBooking db bookingId userId ⟨none, some newStart, some newEnd⟩ now =
        .error (.conflict "Selected dates are not available") ↔
      ∃ b ∈ db.bookings, b.propertyId = booking.propertyId ∧ b.id ≠ bookingId ∧
        ((b.startDate < newEnd ∧ b.endDate > newStart) ∨
         (newStart ≤ b.startDate ∧ b.startDate ≤ newEnd))) ∧
    ((¬ ∃ b ∈ db.bookings, b.propertyId = booking.propertyId ∧ b.id ≠ bookingId ∧
        ((b.startDate < newEnd ∧ b.endDate > newStart) ∨
         (newStart ≤ b.startDate ∧ b.startDate ≤ newEnd))) →
      updateBooking db bookingId userId ⟨none, some newStart, some newEnd⟩ now =
        .ok ({db with
          bookings := db.bookings.map (fun b => if b.id == bookingId then
            {booking with startDate := newStart, endDate := newEnd, updatedAt := some now}
            else b),
          availability := (db.availability.map (fun sl =>
            if sl.propertyId == booking.propertyId && sl.bookingId == some bookingId then
              {sl with isAvailable := true, bookingId := none}
            else sl)).map (fun sl =>
            if sl.propertyId == booking.propertyId && decide (sl.startDate < newEnd) &&
               decide (sl.endDate > newStart) && sl.isAvailable then
              {sl with isAvailable := false, bookingId := some bookingId}
            else sl)},
          {booking with startDate := newStart, endDate := newEnd, updatedAt := some now})) := by
  have hle : ¬ newEnd ≤ newStart := not_le.mpr hdates
  constructor
  · constructor
    · intro herr
      by_cases hpos :
          0 < (db.bookings.filter
            (updateConflictPred booking.propertyId bookingId newStart newEnd)).length
      · obtain ⟨a, ha⟩ := List.exists_mem_of_length_pos hpos
        obtain ⟨ham, hap⟩ := List.mem_filter.mp ha
        obtain ⟨h1, h2, h3⟩ := updateConflictPred_iff.mp hap
        exact ⟨a, ham, h1, h2, h3⟩
      · rw [updateBooking] at herr
        simp [hfind, hten, hprop, hmin, hmax, hle, hpos] at herr
    · rintro ⟨b, hbmem, h1, h2, h3⟩
      have hpos :
          0 < (db.bookings.filter
            (updateConflictPred booking.propertyId bookingId newStart newEnd)).length :=
        List.length_pos_of_mem
          (List.mem_filter.mpr ⟨hbmem, updateConflictPred_iff.mpr ⟨h1, h2, h3⟩⟩)
      rw [updateBooking]
      simp [hfind, hten, hprop, hmin, hmax, hle, hpos]
  · intro hno
    have hpos :
        ¬ 0 < (db.bookings.filter
          (updateConflictPred booking.propertyId bookingId newStart newEnd)).length := by
      intro hpos
      obtain ⟨a, ha⟩ := List.exists_mem_of_length_pos hpos
      obtain ⟨ham, hap⟩ := List.mem_filter.mp ha
      obtain ⟨h1, h2, h3⟩ := updateConflictPred_iff.mp hap
      exact hno ⟨a, ham, h1, h2, h3⟩
    rw [updateBooking]
    simp [hfind, hten, hprop, hmin, hmax, hle, hpos]

/-- Witness for C9 (amended) at the counterexample store: the iff instantiated
there confirms the conflict comes from the cancelled booking. -/
theorem claim_C9_amended_witness :
    updateBooking c9Db 1 "u9" ⟨none, some 12, some 14⟩ 0 =
        .error (.conflict "Selected dates are not available") ↔
      ∃ b ∈ c9Db.bookings, b.propertyId = c9Booking1.propertyId ∧ b.id ≠ 1 ∧
        ((b.startDate < 14 ∧ b.endDate > 12) ∨
         ((12 : Int) ≤ b.startDate ∧ b.startDate ≤ 14)) :=
  (claim_C9_amended c9Db 1 "u9" 12 14 0 c9Booking1 c9Property
    (by simp [c9Db, c9Booking1, List.find?])
    (by simp [c9Booking1])
    (by simp [c9Db, c9Booking1, c9Property, List.find?])
    (by norm_num)
    (by simp [c9Property, jsTruthyInt])
    (by simp [c9Property, jsTruthyInt])).1

/-- Helper: after the winner's transaction committed, the loser's own
`createBooking` transaction fails with a `ConflictError` (the ranges share a
day, whose covering slots are now claimed). -/
theorem runCreate_loser_conflict {isValidUUID : String → Bool} {req : Bool → BookingReq}
    {bid : Bool → Nat} {db0 : DB}
    (hpid : (req false).propertyId = (req true).propertyId)
    (hover : max (req false).startDate (req true).startDate <
             min (req false).endDate (req true).endDate)
    (hsucc : ∀ i, ∃ out, runCreate isValidUUID db0 (req i) (bid i) = .ok out)
    (w : Bool) {out : DB × BookingRow}
    (hout : runCreate isValidUUID db0 (req w) (bid w) = .ok out) :
    ∃ m, runCreate isValidUUID out.1 (req (!w)) (bid (!w)) = .error (.conflict m) := by
  have hpidwl : (req w).propertyId = (req (!w)).propertyId := by
    cases w
    · exact hpid
    · exact hpid.symm
  obtain ⟨db1, bk1⟩ := out
  unfold runCreate at hout
  obtain ⟨-, -, -, hltw, propw, avw, prw, -, -, -, -, -, hcheckw, -, -, hdbw⟩ :=
    createBooking_ok_elim hout
  obtain ⟨outl, houtl⟩ := hsucc (!w)
  obtain ⟨dbl, bkl⟩ := outl
  unfold runCreate at houtl
  obtain ⟨hu1l, hu2l, hmissl, hltl, propl, avl, prl, hfindl, hstatl, hgl, hminl, hmaxl,
    -, -, -, -⟩ := createBooking_ok_elim houtl
  have hdw1 : (req w).startDate ≤ max (req false).startDate (req true).startDate := by
    cases w
    · exact le_max_left _ _
    · exact le_max_right _ _
  have hdl1 : (req (!w)).startDate ≤ max (req false).startDate (req true).startDate := by
    cases w
    · exact le_max_right _ _
    · exact le_max_left _ _
  have hdw2 : max (req false).startDate (req true).startDate < (req w).endDate := by
    cases w
    · exact lt_of_lt_of_le hover (min_le_left _ _)
    · exact lt_of_lt_of_le hover (min_le_right _ _)
  have hdl2 : max (req false).startDate (req true).startDate < (req (!w)).endDate := by
    cases w
    · exact lt_of_lt_of_le hover (min_le_right _ _)
    · exact lt_of_lt_of_le hover (min_le_left _ _)
  obtain ⟨m, hm⟩ := @check_conflict_after_claim db0.availability (req (!w)).propertyId
    (bid w) (req w).startDate (req w).endDate (req (!w)).startDate (req (!w)).endDate
    (max (req false).startDate (req true).startDate) hdl1 hdl2 hdw1 hdw2
  refine ⟨m, ?_⟩
  unfold runCreate
  rw [hdbw, hpidwl]
  simp [createBooking, hu1l, hu2l, hmissl, not_le.mpr hltl, hfindl, hstatl, hgl, hminl,
    hmaxl, hm]

/-- Helper: reading the updated process. -/
theorem setProc_procs_self (sys : SysState) (i : Bool) (p : ProcState) :
    (sys.setProc i p).procs i = p := by
  simp [SysState.setProc]

/-- Helper: reading the other process. -/
theorem setProc_procs_other (sys : SysState) (i : Bool) (p : ProcState) {j : Bool}
    (h : j ≠ i) : (sys.setProc i p).procs j = sys.procs j := by
  simp [SysState.setProc, h]

/-- Helper: two distinct booleans are negations of each other. -/
theorem bool_ne_eq_not {i j : Bool} (h : j ≠ i) : j = !i := by
  cases i <;> cases j <;> simp_all


/-- Helper: every scheduler step preserves the two-process invariant. -/
theorem sysStep_inv {isValidUUID : String → Bool} {req : Bool → BookingReq}
    {bid : Bool → Nat} {db0 : DB}
    (hpid : (req false).propertyId = (req true).propertyId)
    (hover : max (req false).startDate (req true).startDate <
             min (req false).endDate (req true).endDate)
    (hsucc : ∀ i, ∃ out, runCreate isValidUUID db0 (req i) (bid i) = .ok out)
    {sys : SysState} (i : Bool)
    (hinv : SysInv isValidUUID req bid db0 sys) :
    SysInv isValidUUID req bid db0 (sysStep isValidUUID req bid sys i) := by
  rcases hinv with ⟨hdb, hproc, hlockc⟩ |
    ⟨w, out, hrun, hdb, hres, hwpc, hwrel, hlacq, hltxn, hlrel, hldone⟩
  · -- Phase A
    cases hpc : (sys.procs i).pc with
    | done =>
        have hstep : sysStep isValidUUID req bid sys i = sys := by
          simp [sysStep, hpc]
        rw [hstep]
        exact Or.inl ⟨hdb, hproc, hlockc⟩
    | rel => exact absurd hpc (hproc i).2.2.1
    | acq =>
        obtain ⟨hres0, hret0⟩ := (hproc i).1 hpc
        cases hl : sys.lock with
        | none =>
            have hstep : sysStep isValidUUID req bid sys i =
                {sys.setProc i {sys.procs i with pc := .txn} with lock := some i} := by
              simp [sysStep, hpc, hl]
            rw [hstep]
            have hP : ({sys.setProc i {sys.procs i with pc := .txn} with
                lock := some i}).procs i = {sys.procs i with pc := .txn} := by
              simp [SysState.setProc]
            have hO : ∀ j, j ≠ i → ({sys.setProc i {sys.procs i with pc := .txn} with
                lock := some i}).procs j = sys.procs j := by
              intro j hj
              simp [SysState.setProc, hj]
            left
            refine ⟨hdb, ?_, ?_⟩
            · intro j
              by_cases hj : j = i
              · subst hj
                refine ⟨?_, ?_, ?_, ?_⟩
                · intro hx
                  rw [hP] at hx
                  simp at hx
                · intro _
                  refine ⟨?_, rfl⟩
                  rw [hP]
                  exact hres0
                · intro hx
                  rw [hP] at hx
                  simp at hx
                · intro hx
                  rw [hP] at hx
                  simp at hx
              · refine ⟨?_, ?_, ?_, ?_⟩
                · rw [hO j hj]
                  exact (hproc j).1
                · rw [hO j hj]
                  intro hx
                  obtain ⟨-, hlj⟩ := (hproc j).2.1 hx
                  rw [hl] at hlj
                  exact absurd hlj (by simp)
                · rw [hO j hj]
                  exact (hproc j).2.2.1
                · rw [hO j hj]
                  intro hx
                  obtain ⟨-, hlj, -⟩ := (hproc j).2.2.2 hx
                  rw [hl] at hlj
                  exact absurd hlj (by simp)
            · intro x hx
              have hxi : i = x := Option.some.inj hx
              subst hxi
              rw [hP]
        | some y =>
            have hy : (sys.procs y).pc = .txn := hlockc y hl
            have hyi : y ≠ i := by
              intro he
              rw [he, hpc] at hy
              cases hy
            have hy' : y = !i := bool_ne_eq_not hyi
            by_cases hr : (sys.procs i).retries ≤ 1
            · have hstep : sysStep isValidUUID req bid sys i =
                  sys.setProc i {sys.procs i with pc := .done, result := some (.error (.conflict "Property is currently being modified by another request"))} := by
                simp [sysStep, hpc, hl, hr]
              rw [hstep]
              have hP := setProc_procs_self sys i {sys.procs i with pc := .done, result := some (.error (.conflict "Property is currently being modified by another request"))}
              have hO : ∀ j, j ≠ i → (sys.setProc i {sys.procs i with pc := .done, result := some (.error (.conflict "Property is currently being modified by another request"))}).procs j =
                  sys.procs j := by
                intro j hj
                simp [SysState.setProc, hj]
              left
              refine ⟨hdb, ?_, ?_⟩
              · intro j
                by_cases hj : j = i
                · subst hj
                  refine ⟨?_, ?_, ?_, ?_⟩
                  · intro hx
                    rw [hP] at hx
                    simp at hx
                  · intro hx
                    rw [hP] at hx
                    simp at hx
                  · intro hx
                    rw [hP] at hx
                    simp at hx
                  · intro _
                    refine ⟨⟨"Property is currently being modified by another request", ?_⟩, ?_, ?_⟩
                    · rw [hP]
                    · show sys.lock = some (!j)
                      rw [hl, hy']
                    · rw [hO (!j) (by cases j <;> simp), ← hy']
                      exact hy
                · refine ⟨?_, ?_, ?_, ?_⟩
                  · rw [hO j hj]
                    exact (hproc j).1
                  · rw [hO j hj]
                    exact (hproc j).2.1
                  · rw [hO j hj]
                    exact (hproc j).2.2.1
                  · rw [hO j hj]
                    intro hx
                    obtain ⟨-, -, hm3⟩ := (hproc j).2.2.2 hx
                    have hji : (!j) = i := by
                      rw [bool_ne_eq_not hj]
                      cases i <;> simp
                    rw [hji, hpc] at hm3
                    exact absurd hm3 (by simp)
              · intro x hx
                have hxy : y = x := by
                  have h1 : sys.lock = some x := hx
                  rw [hl] at h1
                  exact Option.some.inj h1
                subst hxy
                rw [hO y hyi]
                exact hy
            · have hstep : sysStep isValidUUID req bid sys i =
                  sys.setProc i {sys.procs i with retries := (sys.procs i).retries - 1} := by
                simp [sysStep, hpc, hl, hr]
              rw [hstep]
              have hP := setProc_procs_self sys i
                {sys.procs i with retries := (sys.procs i).retries - 1}
              have hO : ∀ j, j ≠ i → (sys.setProc i
                  {sys.procs i with retries := (sys.procs i).retries - 1}).procs j =
                  sys.procs j := by
                intro j hj
                simp [SysState.setProc, hj]
              left
              refine ⟨hdb, ?_, ?_⟩
              · intro j
                by_cases hj : j = i
                · subst hj
                  refine ⟨?_, ?_, ?_, ?_⟩
                  · intro _
                    refine ⟨?_, ?_⟩
                    · rw [hP]
                      exact hres0
                    · rw [hP]
                      show 1 ≤ (sys.procs j).retries - 1
                      omega
                  · intro hx
                    rw [hP] at hx
                    simp [hpc] at hx
                  · intro hx
                    rw [hP] at hx
                    simp [hpc] at hx
                  · intro hx
                    rw [hP] at hx
                    simp [hpc] at hx
                · refine ⟨?_, ?_, ?_, ?_⟩
                  · rw [hO j hj]
                    exact (hproc j).1
                  · rw [hO j hj]
                    exact (hproc j).2.1
                  · rw [hO j hj]
                    exact (hproc j).2.2.1
                  · rw [hO j hj]
                    intro hx
                    obtain ⟨-, -, hm3⟩ := (hproc j).2.2.2 hx
                    have hji : (!j) = i := by
                      rw [bool_ne_eq_not hj]
                      cases i <;> simp
                    rw [hji, hpc] at hm3
                    exact absurd hm3 (by simp)
              · intro x hx
                have hxy : y = x := by
                  have h1 : sys.lock = some x := hx
                  rw [hl] at h1
                  exact Option.some.inj h1
                subst hxy
                rw [hO y hyi]
                exact hy
    | txn =>
        obtain ⟨hres0, hlcki⟩ := (hproc i).2.1 hpc
        obtain ⟨outi, houti⟩ := hsucc i
        have hbkid : outi.2.id = bid i := by
          obtain ⟨dbx, bkx⟩ := outi
          unfold runCreate at houti
          obtain ⟨-, -, -, -, p, a, pr, -, -, -, -, -, -, -, hbk, -⟩ :=
            createBooking_ok_elim houti
          rw [hbk]
        have hstep : sysStep isValidUUID req bid sys i =
            {sys.setProc i {sys.procs i with pc := .rel, result := some (.ok outi.2.id)} with db := outi.1} := by
          simp [sysStep, hpc, hdb, houti]
        rw [hstep]
        have hP : ({sys.setProc i {sys.procs i with pc := .rel, result := some (.ok outi.2.id)} with db := outi.1}).procs i =
            {sys.procs i with pc := .rel, result := some (.ok outi.2.id)} := by
          simp [SysState.setProc]
        have hO : ∀ j, j ≠ i → ({sys.setProc i {sys.procs i with pc := .rel, result := some (.ok outi.2.id)} with db := outi.1}).procs j = sys.procs j := by
          intro j hj
          simp [SysState.setProc, hj]
        have hni : (!i) ≠ i := by cases i <;> simp
        right
        refine ⟨i, outi, houti, rfl, ?_, Or.inl ?_, ?_, ?_, ?_, ?_, ?_⟩
        · rw [hP]
          show some (Except.ok outi.2.id) = some (Except.ok (bid i))
          rw [hbkid]
        · rw [hP]
        · intro _
          exact hlcki
        · rw [hO (!i) hni]
          exact (hproc (!i)).1
        · rw [hO (!i) hni]
          intro hx
          obtain ⟨-, hlj⟩ := (hproc (!i)).2.1 hx
          rw [hlcki] at hlj
          have h2 : i = !i := Option.some.inj hlj
          exact absurd h2 (by cases i <;> simp)
        · rw [hO (!i) hni]
          intro hx
          exact absurd hx (hproc (!i)).2.2.1
        · rw [hO (!i) hni]
          intro hx
          exact ((hproc (!i)).2.2.2 hx).1
  · -- Phase B
    have hwne : w ≠ !w := by cases w <;> simp
    cases hpc : (sys.procs i).pc with
    | done =>
        have hstep : sysStep isValidUUID req bid sys i = sys := by
          simp [sysStep, hpc]
        rw [hstep]
        exact Or.inr ⟨w, out, hrun, hdb, hres, hwpc, hwrel, hlacq, hltxn, hlrel, hldone⟩
    | acq =>
        have hne : i ≠ w := by
          intro he
          rcases hwpc with h1 | h1 <;> rw [he, h1] at hpc <;> cases hpc
        have hiw : i = !w := bool_ne_eq_not hne
        subst hiw
        obtain ⟨hres0, hret0⟩ := hlacq hpc
        cases hl : sys.lock with
        | none =>
            have hwdone : (sys.procs w).pc = .done := by
              rcases hwpc with h1 | h1
              · have h2 := hwrel h1
                rw [hl] at h2
                cases h2
              · exact h1
            have hstep : sysStep isValidUUID req bid sys (!w) =
                {sys.setProc (!w) {sys.procs (!w) with pc := .txn} with lock := some (!w)} := by
              simp [sysStep, hpc, hl]
            rw [hstep]
            have hP : ({sys.setProc (!w) {sys.procs (!w) with pc := .txn} with
                lock := some (!w)}).procs (!w) = {sys.procs (!w) with pc := .txn} := by
              simp [SysState.setProc]
            have hO : ∀ j, j ≠ !w → ({sys.setProc (!w) {sys.procs (!w) with pc := .txn} with
                lock := some (!w)}).procs j = sys.procs j := by
              intro j hj
              simp [SysState.setProc, hj]
            right
            refine ⟨w, out, hrun, hdb, ?_, ?_, ?_, ?_, ?_, ?_, ?_⟩
            · rw [hO w hwne]
              exact hres
            · rw [hO w hwne]
              exact hwpc
            · rw [hO w hwne]
              intro hx
              rw [hwdone] at hx
              cases hx
            · intro hx
              rw [hP] at hx
              simp at hx
            · intro _
              refine ⟨?_, rfl, ?_⟩
              · rw [hP]
                exact hres0
              · rw [hO w hwne]
                exact hwdone
            · intro hx
              rw [hP] at hx
              simp at hx
            · intro hx
              rw [hP] at hx
              simp at hx
        | some y =>
            by_cases hr : (sys.procs (!w)).retries ≤ 1
            · have hstep : sysStep isValidUUID req bid sys (!w) =
                  sys.setProc (!w) {sys.procs (!w) with pc := .done, result := some (.error (.conflict "Property is currently being modified by another request"))} := by
                simp [sysStep, hpc, hl, hr]
              rw [hstep]
              have hP := setProc_procs_self sys (!w) {sys.procs (!w) with pc := .done, result := some (.error (.conflict "Property is currently being modified by another request"))}
              have hO : ∀ j, j ≠ !w → (sys.setProc (!w) {sys.procs (!w) with pc := .done, result := some (.error (.conflict "Property is currently being modified by another request"))}).procs j =
                  sys.procs j := by
                intro j hj
                simp [SysState.setProc, hj]
              right
              refine ⟨w, out, hrun, hdb, ?_, ?_, ?_, ?_, ?_, ?_, ?_⟩
              · rw [hO w hwne]
                exact hres
              · rw [hO w hwne]
                exact hwpc
              · rw [hO w hwne]
                intro hx
                exact hwrel hx
              · intro hx
                rw [hP] at hx
                simp at hx
              · intro hx
                rw [hP] at hx
                simp at hx
              · intro hx
                rw [hP] at hx
                simp at hx
              · intro _
                rw [hP]
                exact ⟨_, rfl⟩
            · have hstep : sysStep isValidUUID req bid sys (!w) =
                  sys.setProc (!w) {sys.procs (!w) with retries := (sys.procs (!w)).retries - 1} := by
                simp [sysStep, hpc, hl, hr]
              rw [hstep]
              have hP := setProc_procs_self sys (!w)
                {sys.procs (!w) with retries := (sys.procs (!w)).retries - 1}
              have hO : ∀ j, j ≠ !w → (sys.setProc (!w) {sys.procs (!w) with retries := (sys.procs (!w)).retries - 1}).procs j =
                  sys.procs j := by
                intro j hj
                simp [SysState.setProc, hj]
              right
              refine ⟨w, out, hrun, hdb, ?_, ?_, ?_, ?_, ?_, ?_, ?_⟩
              · rw [hO w hwne]
                exact hres
              · rw [hO w hwne]
                exact hwpc
              · rw [hO w hwne]
                intro hx
                exact hwrel hx
              · intro _
                refine ⟨?_, ?_⟩
                · rw [hP]
                  exact hres0
                · rw [hP]
                  show 1 ≤ (sys.procs (!w)).retries - 1
                  omega
              · intro hx
                rw [hP] at hx
                simp [hpc] at hx
              · intro hx
                rw [hP] at hx
                simp [hpc] at hx
              · intro hx
                rw [hP] at hx
                simp [hpc] at hx
    | txn =>
        have hne : i ≠ w := by
          intro he
          rcases hwpc with h1 | h1 <;> rw [he, h1] at hpc <;> cases hpc
        have hiw : i = !w := bool_ne_eq_not hne
        subst hiw
        obtain ⟨hres0, hlck, hwdone⟩ := hltxn hpc
        obtain ⟨m, hm⟩ := runCreate_loser_conflict hpid hover hsucc w hrun
        have hstep : sysStep isValidUUID req bid sys (!w) =
            sys.setProc (!w) {sys.procs (!w) with pc := .rel, result := some (.error (.conflict m))} := by
          simp [sysStep, hpc, hdb, hm]
        rw [hstep]
        have hP := setProc_procs_self sys (!w) {sys.procs (!w) with pc := .rel, result := some (.error (.conflict m))}
        have hO : ∀ j, j ≠ !w → (sys.setProc (!w) {sys.procs (!w) with pc := .rel, result := some (.error (.conflict m))}).procs j = sys.procs j := by
          intro j hj
          simp [SysState.setProc, hj]
        right
        refine ⟨w, out, hrun, hdb, ?_, ?_, ?_, ?_, ?_, ?_, ?_⟩
        · rw [hO w hwne]
          exact hres
        · rw [hO w hwne]
          exact hwpc
        · rw [hO w hwne]
          intro hx
          rw [hwdone] at hx
          cases hx
        · intro hx
          rw [hP] at hx
          simp at hx
        · intro hx
          rw [hP] at hx
          simp at hx
        · intro _
          refine ⟨⟨m, ?_⟩, ?_, ?_⟩
          · rw [hP]
          · exact hlck
          · rw [hO w hwne]
            exact hwdone
        · intro hx
          rw [hP] at hx
          simp at hx
    | rel =>
        by_cases hiw : i = w
        · subst hiw
          have hstep : sysStep isValidUUID req bid sys i =
              {sys.setProc i {sys.procs i with pc := .done} with lock := none} := by
            simp [sysStep, hpc]
          rw [hstep]
          have hP : ({sys.setProc i {sys.procs i with pc := .done} with
              lock := none}).procs i = {sys.procs i with pc := .done} := by
            simp [SysState.setProc]
          have hO : ∀ j, j ≠ i → ({sys.setProc i {sys.procs i with pc := .done} with
              lock := none}).procs j = sys.procs j := by
            intro j hj
            simp [SysState.setProc, hj]
          have hnw : (!i) ≠ i := by cases i <;> simp
          right
          refine ⟨i, out, hrun, hdb, ?_, Or.inr ?_, ?_, ?_, ?_, ?_, ?_⟩
          · rw [hP]
            exact hres
          · rw [hP]
          · intro hx
            rw [hP] at hx
            simp at hx
          · rw [hO (!i) hnw]
            exact hlacq
          · rw [hO (!i) hnw]
            intro hx
            obtain ⟨-, -, hwd⟩ := hltxn hx
            rw [hpc] at hwd
            exact absurd hwd (by simp)
          · rw [hO (!i) hnw]
            intro hx
            obtain ⟨-, -, hwd⟩ := hlrel hx
            rw [hpc] at hwd
            exact absurd hwd (by simp)
          · rw [hO (!i) hnw]
            exact hldone
        · have hiw' : i = !w := bool_ne_eq_not hiw
          subst hiw'
          obtain ⟨⟨m, hm⟩, hlck, hwdone⟩ := hlrel hpc
          have hstep : sysStep isValidUUID req bid sys (!w) =
              {sys.setProc (!w) {sys.procs (!w) with pc := .done} with lock := none} := by
            simp [sysStep, hpc]
          rw [hstep]
          have hP : ({sys.setProc (!w) {sys.procs (!w) with pc := .done} with
              lock := none}).procs (!w) = {sys.procs (!w) with pc := .done} := by
            simp [SysState.setProc]
          have hO : ∀ j, j ≠ !w → ({sys.setProc (!w) {sys.procs (!w) with pc := .done} with
              lock := none}).procs j = sys.procs j := by
            intro j hj
            simp [SysState.setProc, hj]
          right
          refine ⟨w, out, hrun, hdb, ?_, ?_, ?_, ?_, ?_, ?_, ?_⟩
          · rw [hO w hwne]
            exact hres
          · rw [hO w hwne]
            exact hwpc
          · rw [hO w hwne]
            intro hx
            rw [hwdone] at hx
            cases hx
          · intro hx
            rw [hP] at hx
            simp at hx
          · intro hx
            rw [hP] at hx
            simp at hx
          · intro hx
            rw [hP] at hx
            simp at hx
          · intro _
            rw [hP]
            exact ⟨m, hm⟩

/-- Helper: the invariant holds initially (phase A, untouched store). -/
theorem sysInit_inv (isValidUUID : String → Bool) (req : Bool → BookingReq)
    (bid : Bool → Nat) (db0 : DB) : SysInv isValidUUID req bid db0 (sysInit db0) := by
  left
  refine ⟨rfl, ?_, ?_⟩
  · intro i
    refine ⟨fun _ => ⟨rfl, by simp [sysInit]⟩, fun hx => ?_, fun hx => ?_, fun hx => ?_⟩
    · simp [sysInit] at hx
    · simp [sysInit] at hx
    · simp [sysInit] at hx
  · intro i hx
    simp [sysInit] at hx

/-- Helper: the invariant is preserved along any schedule. -/
theorem sysRun_inv {isValidUUID : String → Bool} {req : Bool → BookingReq}
    {bid : Bool → Nat} {db0 : DB}
    (hpid : (req false).propertyId = (req true).propertyId)
    (hover : max (req false).startDate (req true).startDate <
             min (req false).endDate (req true).endDate)
    (hsucc : ∀ i, ∃ out, runCreate isValidUUID db0 (req i) (bid i) = .ok out) :
    ∀ (sched : List Bool) (sys : SysState), SysInv isValidUUID req bid db0 sys →
      SysInv isValidUUID req bid db0 (sysRun isValidUUID req bid sys sched) := by
  intro sched
  induction sched with
  | nil => intro sys h; exact h
  | cons i rest ih =>
      intro sys h
      exact ih _ (sysStep_inv hpid hover hsucc i h)

/-- Helper: distinct property ids give distinct lock keys. -/
theorem lockKey_inj {p q : String} (h : lockKey p = lockKey q) : p = q := by
  unfold lockKey at h
  have h1 : ("property:" ++ p ++ ":lock").data = ("property:" ++ q ++ ":lock").data := by
    rw [h]
  simp only [String.data_append, List.append_assoc] at h1
  have h2 := List.append_cancel_left h1
  have h3 := List.append_cancel_right h2
  exact String.ext h3

/-- C2: the per-property lock key is the string `property:<id>:lock` and is
injective in the property id, so distinct properties are guarded by
independent lock keys (their critical sections are unrelated and may proceed
in parallel); and for any two concurrent `createBooking` calls with
overlapping date ranges on the same property, each of which would succeed
against the initial store on its own, every completed interleaving of the
lock/transaction/release steps ends with exactly one of the two receiving a
successful booking and the other receiving a `ConflictError`. -/
theorem claim_C2 :
    (∀ p, lockKey p = "property:" ++ p ++ ":lock") ∧
    (∀ p q, lockKey p = lockKey q → p = q) ∧
    (∀ (isValidUUID : String → Bool) (req : Bool → BookingReq) (bid : Bool → Nat) (db0 : DB),
      (req false).propertyId = (req true).propertyId →
      max (req false).startDate (req true).startDate <
        min (req false).endDate (req true).endDate →
      (∀ i, ∃ out, runCreate isValidUUID db0 (req i) (bid i) = .ok out) →
      ∀ sched : List Bool,
        (∀ i, ((sysRun isValidUUID req bid (sysInit db0) sched).procs i).pc = .done) →
        ∃ w, ((sysRun isValidUUID req bid (sysInit db0) sched).procs w).result =
              some (.ok (bid w)) ∧
          ∃ m, ((sysRun isValidUUID req bid (sysInit db0) sched).procs (!w)).result =
              some (.error (.conflict m))) := by
  refine ⟨fun p => rfl, fun p q h => lockKey_inj h, ?_⟩
  intro isValidUUID req bid db0 hpid hover hsucc sched hdone
  have hinv := sysRun_inv hpid hover hsucc sched (sysInit db0)
    (sysInit_inv isValidUUID req bid db0)
  rcases hinv with ⟨-, hproc, -⟩ |
    ⟨w, out, -, -, hres, -, -, -, -, -, hldone⟩
  · obtain ⟨-, -, htxn⟩ := (hproc false).2.2.2 (hdone false)
    have htxn' : ((sysRun isValidUUID req bid (sysInit db0) sched).procs true).pc = .txn :=
      htxn
    rw [hdone true] at htxn'
    cases htxn'
  · exact ⟨w, hres, hldone (hdone (!w))⟩

/-- Helper: the second requester's booking succeeds when run alone on the
fresh store. -/
theorem exCreate2_eq :
    createBooking (fun _ => true) exDb "p1" "u2" 0 2 1 0 0 "card" 8 = .ok (exDbAfter2, exBk2) := by
  have hsort : (([⟨1, "p1", 0, 1, some 100, true, none⟩,
      ⟨2, "p1", 1, 2, some 100, true, none⟩] : List AvailabilitySlot).mergeSort
        (fun a b => decide (a.startDate ≤ b.startDate))) =
      [⟨1, "p1", 0, 1, some 100, true, none⟩, ⟨2, "p1", 1, 2, some 100, true, none⟩] :=
    List.mergeSort_of_sorted (by simp)
  simp [createBooking, checkAvailabilityWithLock, walkDays, priceDays, calculateTotalPrice,
    updateAvailabilitySlots, exDb, exProperty, exBk2, exDbAfter2, jsOrInt, jsTruthyInt,
    MIN_BOOKING_DAYS, hsort]
  norm_num

/-- Helper: the second requester's booking fails with a conflict once the
first requester's booking has claimed the slots. -/
theorem exCreateFail_eq :
    createBooking (fun _ => true) exDbAfter "p1" "u2" 0 2 1 0 0 "card" 8 =
      .error (.conflict "No availability for selected dates") := by
  simp [createBooking, checkAvailabilityWithLock, exDbAfter, exProperty, jsOrInt, jsTruthyInt,
    MIN_BOOKING_DAYS]

/-- Witness for C2: the concrete two-request race on property `p1` over
`[0,2)`, under the schedule where the first requester acquires, books and
releases before the second acts: the first wins with booking id 7, the
second gets a `ConflictError`. -/
theorem claim_C2_witness :
    ∃ w, ((sysRun (fun _ => true) c2Req c2Bid (sysInit exDb)
        [false, false, false, true, true, true]).procs w).result = some (.ok (c2Bid w)) ∧
      ∃ m, ((sysRun (fun _ => true) c2Req c2Bid (sysInit exDb)
        [false, false, false, true, true, true]).procs (!w)).result =
          some (.error (.conflict m)) := by
  have hrunF : runCreate (fun _ => true) exDb (c2Req false) (c2Bid false) =
      .ok (exDbAfter, exBk) := by
    simpa [runCreate, c2Req, c2Bid] using exCreate_eq
  have hrunT : runCreate (fun _ => true) exDb (c2Req true) (c2Bid true) =
      .ok (exDbAfter2, exBk2) := by
    simpa [runCreate, c2Req, c2Bid] using exCreate2_eq
  have hrunTF : runCreate (fun _ => true) exDbAfter (c2Req true) (c2Bid true) =
      .error (.conflict "No availability for selected dates") := by
    simpa [runCreate, c2Req, c2Bid] using exCreateFail_eq
  refine claim_C2.2.2 (fun _ => true) c2Req c2Bid exDb rfl (by decide) ?_ _ ?_
  · intro i
    cases i
    · exact ⟨(exDbAfter, exBk), hrunF⟩
    · exact ⟨(exDbAfter2, exBk2), hrunT⟩
  · intro i
    cases i <;>
      simp [sysRun, sysStep, sysInit, SysState.setProc, hrunF, hrunTF]
